import Mathlib

/-!
# EngineDeck: passthrough state machine, render orchestration and input conversion

A shallow embedding of `src/engine/enginedeck.cpp`.

* Samples (`CSAMPLE`) are only copied and silenced by this code, never computed with, so
  the development is parametric in the sample type `α`; silence is `0`.
* C buffers are lists; an access outside a buffer and a division by zero are explicit
  `Fault`s instead of undefined behaviour.
* The DSP collaborators (`EngineBuffer`, `EngineVinylSoundEmu`, `EnginePregain`, ...) are
  parameters: each is an arbitrary function on the buffer and on a shared collaborator
  state `W`. Every invocation is also recorded, in order, in a call log.
* `MAX_BUFFER_LEN` and `AudioInput::channelsNeededForType` are parameters.
* Frame and sample counts are natural numbers. `MAX_BUFFER_LEN` is an `int` constant, so
  the products `nFrames * 2` formed after the clamp stay below `2^32` and never wrap.
-/

namespace Mixxx

/-- Undefined behaviour of the C++ code, made observable. -/
inductive Fault where
  | outOfBounds
  | divisionByZero
  deriving DecidableEq

instance instDecidableEqExcept {ε β : Type} [DecidableEq ε] [DecidableEq β] :
    DecidableEq (Except ε β)
  | .ok a, .ok b => if h : a = b then isTrue (by rw [h]) else isFalse (by intro h1; cases h1; exact h rfl)
  | .error a, .error b =>
    if h : a = b then isTrue (by rw [h]) else isFalse (by intro h1; cases h1; exact h rfl)
  | .ok _, .error _ => isFalse (by intro h; cases h)
  | .error _, .ok _ => isFalse (by intro h; cases h)

/-- Store `vals` into `buf` from index `offset` on; a store past the end of `buf` is a fault. -/
def writeBlock {α : Type} (buf : List α) (offset : Nat) (vals : List α) : Except Fault (List α) :=
  if offset + vals.length ≤ buf.length then
    .ok (buf.take offset ++ vals ++ buf.drop (offset + vals.length))
  else
    .error .outOfBounds

/-- Modelled from the spec: `SampleUtil::applyGain(pBuffer + offset, 0.0, iNumSamples)`, which is
not under src/; with gain zero the addressed samples are forced to silence. -/
def SampleUtil.applyGainZero {α : Type} [Zero α] (pBuffer : List α) (offset iNumSamples : Nat) :
    Except Fault (List α) :=
  writeBlock pBuffer offset (List.replicate iNumSamples 0)

/-! ## CircularBuffer -/

/-- Modelled from the spec: the `CircularBuffer<CSAMPLE>` class (`m_sampleBuffer`), which is not
under src/. Backing storage with one slot per element of `storage`, a read cursor and a write
cursor, both taken modulo the number of slots. -/
structure CircularBuffer (α : Type) where
  storage : List α
  readCursor : Nat
  writeCursor : Nat
  deriving DecidableEq

namespace CircularBuffer

variable {α : Type} [Zero α]

/-- Modelled from the spec: the constructor `CircularBuffer(length)`; both cursors start at a
common origin. The initial storage content is never observable. -/
def new (length : Nat) : CircularBuffer α :=
  { storage := List.replicate length 0, readCursor := 0, writeCursor := 0 }

/-- Number of slots of the backing storage. -/
def slots (cb : CircularBuffer α) : Nat := cb.storage.length

/-- Modelled from the spec: one slot is permanently kept unused, so the usable capacity is the
number of slots minus one. -/
def capacity (cb : CircularBuffer α) : Nat := cb.slots - 1

/-- Modelled from the spec: the number of buffered samples, the distance from the read cursor to
the write cursor modulo the number of slots. -/
def occupied (cb : CircularBuffer α) : Nat :=
  (cb.writeCursor + cb.slots - cb.readCursor) % cb.slots

/-- Modelled from the spec: `isEmpty()` is `read cursor == write cursor`. -/
def isEmpty (cb : CircularBuffer α) : Bool := cb.readCursor == cb.writeCursor

/-- Modelled from the spec: full is `write + 1 == read` modulo the number of slots. -/
def isFull (cb : CircularBuffer α) : Bool := (cb.writeCursor + 1) % cb.slots == cb.readCursor

/-- The sample stored `k` slots after the read cursor. -/
def peek (cb : CircularBuffer α) (k : Nat) : α :=
  cb.storage.getD ((cb.readCursor + k) % cb.slots) 0

/-- The buffered samples, oldest first (the abstract FIFO content). -/
def contents (cb : CircularBuffer α) : List α :=
  (List.range cb.occupied).map cb.peek

/-- Modelled from the spec: `read(destination, count)` copies up to `count` samples starting at
the read cursor, limited by `occupied`, advances the read cursor by the number copied and
returns that number. -/
def read (cb : CircularBuffer α) (destination : List α) (count : Nat) :
    Except Fault (Nat × List α × CircularBuffer α) :=
  let readCount := min count cb.occupied
  match writeBlock destination 0 ((List.range readCount).map cb.peek) with
  | .error e => .error e
  | .ok dest =>
    .ok (readCount, dest, { cb with readCursor := (cb.readCursor + readCount) % cb.slots })

/-- Modelled from the spec: `skip(count)` advances the read cursor by `min(count, occupied)`
without copying. -/
def skip (cb : CircularBuffer α) (count : Nat) : CircularBuffer α :=
  { cb with readCursor := (cb.readCursor + min count cb.occupied) % cb.slots }

/-- Modelled from the spec: `clear()` resets both cursors to a common origin. -/
def clear (cb : CircularBuffer α) : CircularBuffer α :=
  { cb with readCursor := 0, writeCursor := 0 }

/-- Modelled from the spec: `write(samples, count)` copies up to `count` samples starting at the
write cursor, limited by the free space `capacity - occupied`, advances the write cursor by the
number copied and returns that number. Reading `samples` past its end is a fault. -/
def write (cb : CircularBuffer α) (samples : List α) (count : Nat) :
    Except Fault (Nat × CircularBuffer α) :=
  let writtenCount := min count (cb.capacity - cb.occupied)
  if writtenCount ≤ samples.length then
    .ok (writtenCount,
      { cb with
        storage := (List.range writtenCount).foldl
          (fun st k => st.set ((cb.writeCursor + k) % cb.slots) (samples.getD k 0)) cb.storage
        writeCursor := (cb.writeCursor + writtenCount) % cb.slots })
  else
    .error .outOfBounds

/-- Representation invariant: there is at least one slot and both cursors index a slot. -/
def WF (cb : CircularBuffer α) : Prop :=
  0 < cb.slots ∧ cb.readCursor < cb.slots ∧ cb.writeCursor < cb.slots

instance instDecidableWF (cb : CircularBuffer α) : Decidable cb.WF :=
  inferInstanceAs (Decidable (0 < cb.slots ∧ cb.readCursor < cb.slots ∧ cb.writeCursor < cb.slots))

end CircularBuffer

/-! ## Collaborators -/

/-- The engine objects `EngineDeck` owns and drives from `process`. -/
inductive Collaborator where
  | m_pBuffer
  | m_pVinylSoundEmu
  | m_pPregain
  | m_pFilter
  | m_pFlanger
  | m_pFilterEffect
  | m_pClipping
  | m_pVUMeter
  deriving DecidableEq

/-- One `callee->process(pIn, pOut, iBufferSize)` call: `pIn` is `none` for the null pointer,
`pOut` is the content of the output buffer when the call is made. -/
structure Invocation (α : Type) where
  callee : Collaborator
  pIn : Option (List α)
  pOut : List α
  iBufferSize : Nat
  deriving DecidableEq

/-- The collaborators' behaviour, a parameter of the model: `process c w pIn pOut n` is what
`c->process(pIn, pOut, n)` leaves in the output buffer and in the collaborators' state `w`;
`isTrackLoaded` is `m_pBuffer->isTrackLoaded()`. -/
structure Engines (α W : Type) where
  process : Collaborator → W → Option (List α) → List α → Nat → List α × W
  isTrackLoaded : W → Bool

/-- The render-side state threaded through one callback: collaborator state, output buffer and
the log of collaborator calls made so far. -/
structure Run (α W : Type) where
  world : W
  pOut : List α
  calls : List (Invocation α)
  deriving DecidableEq

namespace Run

variable {α W : Type}

/-- The call `c->process(pOut, pOut, iBufferSize)`: in place on the output buffer. -/
def inPlace (E : Engines α W) (c : Collaborator) (iBufferSize : Nat) (r : Run α W) : Run α W :=
  let res := E.process c r.world (some r.pOut) r.pOut iBufferSize
  { world := res.2, pOut := res.1,
    calls := r.calls ++ [{ callee := c, pIn := some r.pOut, pOut := r.pOut,
                           iBufferSize := iBufferSize }] }

/-- The call `c->process(0, pOut, iBufferSize)`: null input, the callee generates. -/
def nullInput (E : Engines α W) (c : Collaborator) (iBufferSize : Nat) (r : Run α W) : Run α W :=
  let res := E.process c r.world none r.pOut iBufferSize
  { world := res.2, pOut := res.1,
    calls := r.calls ++ [{ callee := c, pIn := none, pOut := r.pOut,
                           iBufferSize := iBufferSize }] }

end Run

/-! ## EngineDeck -/

/-- The value of a control (a C `double`), as far as the test `v > 0` tells values apart. -/
inductive ControlValue where
  | nan
  | negInf
  | posInf
  | finite (q : ℚ)

/-- The C comparison `v > 0`. -/
def ControlValue.gtZero : ControlValue → Bool
  | .nan => false
  | .negInf => false
  | .posInf => true
  | .finite q => decide (0 < q)

/-- The kind of an audio path. Only `VINYLCONTROL` is named by `EngineDeck`. -/
inductive AudioPathType where
  | VINYLCONTROL
  | OTHER (tag : Nat)
  deriving DecidableEq

/-- An `AudioInput`, as far as `EngineDeck` looks at it. -/
structure AudioInput where
  m_type : AudioPathType
  deriving DecidableEq

/-- The accessor `AudioInput::getType()`. -/
def AudioInput.getType (input : AudioInput) : AudioPathType := input.m_type

/-- The passthrough-related fields of `EngineDeck`. -/
structure EngineDeck (α : Type) where
  m_sampleBuffer : CircularBuffer α
  m_pConversionBuffer : List α
  m_bPassthroughIsActive : Bool
  m_bPassthroughWasActive : Bool
  deriving DecidableEq

namespace EngineDeck

variable {α W : Type} [Zero α]

/-- The constructor `EngineDeck::EngineDeck`: a ring buffer of `MAX_BUFFER_LEN+1` slots, a
conversion buffer of `MAX_BUFFER_LEN` samples, both flags false. -/
def new (MAX_BUFFER_LEN : Nat) : EngineDeck α :=
  { m_sampleBuffer := CircularBuffer.new (MAX_BUFFER_LEN + 1)
    m_pConversionBuffer := List.replicate MAX_BUFFER_LEN 0
    m_bPassthroughIsActive := false
    m_bPassthroughWasActive := false }

/-- `EngineDeck::isPassthroughActive`. -/
def isPassthroughActive (d : EngineDeck α) : Bool :=
  d.m_bPassthroughIsActive && !d.m_sampleBuffer.isEmpty

/-- `EngineDeck::slotPassingToggle`. -/
def slotPassingToggle (d : EngineDeck α) (v : ControlValue) : EngineDeck α :=
  { d with m_bPassthroughIsActive := v.gtZero }

/-- `EngineDeck::isActive`. -/
def isActive (E : Engines α W) (d : EngineDeck α) (w : W) : Bool :=
  if d.m_bPassthroughWasActive && !d.m_bPassthroughIsActive then
    true
  else
    E.isTrackLoaded w || d.isPassthroughActive

/-- Bounds-checked load `buf[i]`. -/
def loadAt {α : Type} (buf : List α) (i : Nat) : Except Fault α :=
  match buf[i]? with
  | some v => .ok v
  | none => .error .outOfBounds

/-- Bounds-checked store `buf[i] = v`. -/
def storeAt {α : Type} (buf : List α) (i : Nat) (v : α) : Except Fault (List α) :=
  if i < buf.length then .ok (buf.set i v) else .error .outOfBounds

/-- The loop of lines 158-161 of `receiveBuffer`, entered at index `i` with `remaining`
iterations to go: `m_pConversionBuffer[i*2 + 0] = pBuffer[i]` and
`m_pConversionBuffer[i*2 + 1] = pBuffer[i]`. -/
def monoToStereo {α : Type} (pBuffer : List α) :
    (remaining i : Nat) → (conversion : List α) → Except Fault (List α)
  | 0, _, conversion => .ok conversion
  | remaining + 1, i, conversion =>
    match loadAt pBuffer i with
    | .error e => .error e
    | .ok s =>
      match storeAt conversion (i * 2 + 0) s with
      | .error e => .error e
      | .ok c1 =>
        match storeAt c1 (i * 2 + 1) s with
        | .error e => .error e
        | .ok c2 => monoToStereo pBuffer remaining (i + 1) c2

/-- What one `receiveBuffer` call did: the new state, the block handed to
`m_sampleBuffer.write` (buffer content and `samplesToWrite`; `none` when `pWriteBuffer` stayed
`NULL` or the call returned early) and `samplesWritten`. -/
structure Received (α : Type) where
  deck : EngineDeck α
  offered : Option (List α × Nat)
  samplesWritten : Nat
  deriving DecidableEq

/-- Lines 172-183 of `receiveBuffer`, for a non-null `pWriteBuffer`. -/
def writeOffered (d : EngineDeck α) (pWriteBuffer : List α) (samplesToWrite : Nat) :
    Except Fault (Received α) :=
  match d.m_sampleBuffer.write pWriteBuffer samplesToWrite with
  | .error e => .error e
  | .ok (samplesWritten, rb) =>
    .ok { deck := { d with m_sampleBuffer := rb }
          offered := some (pWriteBuffer, samplesToWrite)
          samplesWritten := samplesWritten }

/-- `EngineDeck::receiveBuffer`. -/
def receiveBuffer (MAX_BUFFER_LEN : Nat) (channelsNeededForType : AudioPathType → Nat)
    (d : EngineDeck α) (input : AudioInput) (pBuffer : List α) (nFrames : Nat) :
    Except Fault (Received α) :=
  if !d.m_bPassthroughIsActive then
    .ok { deck := d, offered := none, samplesWritten := 0 }
  else if input.getType ≠ AudioPathType.VINYLCONTROL then
    .ok { deck := d, offered := none, samplesWritten := 0 }
  else
    let iChannels := channelsNeededForType input.getType
    if iChannels = 0 then
      .error .divisionByZero
    else
      let nFrames :=
        if nFrames > MAX_BUFFER_LEN / iChannels then MAX_BUFFER_LEN / iChannels else nFrames
      if iChannels = 1 then
        match monoToStereo pBuffer nFrames 0 d.m_pConversionBuffer with
        | .error e => .error e
        | .ok conversion =>
          writeOffered { d with m_pConversionBuffer := conversion } conversion (nFrames * 2)
      else if iChannels = 2 then
        writeOffered d pBuffer (nFrames * iChannels)
      else
        .ok { deck := d, offered := none, samplesWritten := 0 }

/-- `EngineDeck::onInputConnected`. -/
def onInputConnected (d : EngineDeck α) (input : AudioInput) : EngineDeck α :=
  if input.getType ≠ AudioPathType.VINYLCONTROL then d
  else { d with m_sampleBuffer := d.m_sampleBuffer.clear }

/-- `EngineDeck::onInputDisconnected`. -/
def onInputDisconnected (d : EngineDeck α) (input : AudioInput) : EngineDeck α :=
  if input.getType ≠ AudioPathType.VINYLCONTROL then d
  else { d with m_sampleBuffer := d.m_sampleBuffer.clear }

/-- Lines 81-105 of `EngineDeck::process`: select the source and fill the output buffer. The
Boolean is true when the function returns from inside this part (line 97). -/
def fillSource (E : Engines α W) (d : EngineDeck α) (w : W) (pOut : List α) (iBufferSize : Nat) :
    Except Fault (EngineDeck α × Run α W × Bool) :=
  if d.isPassthroughActive then
    match d.m_sampleBuffer.read pOut iBufferSize with
    | .error e => .error e
    | .ok (samplesRead, pOut1, rb) =>
      match (if samplesRead < iBufferSize then
               SampleUtil.applyGainZero pOut1 samplesRead (iBufferSize - samplesRead)
             else .ok pOut1) with
      | .error e => .error e
      | .ok pOut2 =>
        .ok ({ d with m_sampleBuffer := rb, m_bPassthroughWasActive := true },
             { world := w, pOut := pOut2, calls := [] }, false)
  else if d.m_bPassthroughWasActive then
    match SampleUtil.applyGainZero pOut 0 iBufferSize with
    | .error e => .error e
    | .ok pOut1 =>
      .ok ({ d with m_sampleBuffer := d.m_sampleBuffer.skip iBufferSize,
                    m_bPassthroughWasActive := false },
           { world := w, pOut := pOut1, calls := [] }, true)
  else
    let r0 : Run α W := { world := w, pOut := pOut, calls := [] }
    let r1 := r0.nullInput E .m_pBuffer iBufferSize
    let r2 := r1.inPlace E .m_pVinylSoundEmu iBufferSize
    .ok ({ d with m_bPassthroughWasActive := false }, r2, false)

/-- Lines 107-117 of `EngineDeck::process`: the stage calls after the source is filled. -/
def processChain (E : Engines α W) (iBufferSize : Nat) (r : Run α W) : Run α W :=
  let r := r.inPlace E .m_pPregain iBufferSize
  let r := r.inPlace E .m_pFilter iBufferSize
  let r := r.inPlace E .m_pFlanger iBufferSize
  let r := r.inPlace E .m_pFilterEffect iBufferSize
  let r := r.inPlace E .m_pClipping iBufferSize
  r.inPlace E .m_pVUMeter iBufferSize

/-- `EngineDeck::process`. The input pointer is unnamed and unused in the source; the frame
count `iBufferSize` is taken non-negative. -/
def process (E : Engines α W) (d : EngineDeck α) (w : W) (pOut : List α) (iBufferSize : Nat) :
    Except Fault (EngineDeck α × Run α W) :=
  match fillSource E d w pOut iBufferSize with
  | .error e => .error e
  | .ok (d1, r, true) => .ok (d1, r)
  | .ok (d1, r, false) => .ok (d1, processChain E iBufferSize r)

/-- The stage chain as the specification words it, to be compared with `processChain`:
pregain, filter, modulation effect, clipping, level metering. -/
def specStageChain (E : Engines α W) (iBufferSize : Nat) (r : Run α W) : Run α W :=
  let r := r.inPlace E .m_pPregain iBufferSize
  let r := r.inPlace E .m_pFilter iBufferSize
  let r := r.inPlace E .m_pFlanger iBufferSize
  let r := r.inPlace E .m_pClipping iBufferSize
  r.inPlace E .m_pVUMeter iBufferSize

end EngineDeck

/-! ## Sequences of calls -/

/-- One call into the deck from the mixer or from the device and control layer. -/
inductive Op (α : Type) where
  | process (pOut : List α) (iBufferSize : Nat)
  | receiveBuffer (input : AudioInput) (pBuffer : List α) (nFrames : Nat)
  | onInputConnected (input : AudioInput)
  | onInputDisconnected (input : AudioInput)
  | slotPassingToggle (v : ControlValue)

/-- The deck, its collaborators' state, and the number of samples `receiveBuffer` calls have
written into the ring buffer so far. -/
structure Sys (α W : Type) where
  deck : EngineDeck α
  world : W
  written : Nat
  deriving DecidableEq

section Steps

variable {α W : Type} [Zero α]

/-- Perform one call. -/
def step (MAX_BUFFER_LEN : Nat) (channelsNeededForType : AudioPathType → Nat)
    (E : Engines α W) (s : Sys α W) : Op α → Except Fault (Sys α W)
  | .process pOut iBufferSize =>
    match s.deck.process E s.world pOut iBufferSize with
    | .error e => .error e
    | .ok (d, r) => .ok { s with deck := d, world := r.world }
  | .receiveBuffer input pBuffer nFrames =>
    match s.deck.receiveBuffer MAX_BUFFER_LEN channelsNeededForType input pBuffer nFrames with
    | .error e => .error e
    | .ok r => .ok { s with deck := r.deck, written := s.written + r.samplesWritten }
  | .onInputConnected input => .ok { s with deck := s.deck.onInputConnected input }
  | .onInputDisconnected input => .ok { s with deck := s.deck.onInputDisconnected input }
  | .slotPassingToggle v => .ok { s with deck := s.deck.slotPassingToggle v }

/-- Perform a sequence of calls, first to last. -/
def run (MAX_BUFFER_LEN : Nat) (channelsNeededForType : AudioPathType → Nat)
    (E : Engines α W) : List (Op α) → Sys α W → Except Fault (Sys α W)
  | [], s => .ok s
  | op :: ops, s =>
    match step MAX_BUFFER_LEN channelsNeededForType E s op with
    | .error e => .error e
    | .ok s1 => run MAX_BUFFER_LEN channelsNeededForType E ops s1

end Steps

/-! ## Concrete instances -/

namespace Example

/-- A digit per collaborator. -/
def code : Collaborator → Int
  | .m_pBuffer => 0
  | .m_pVinylSoundEmu => 1
  | .m_pPregain => 2
  | .m_pFilter => 3
  | .m_pFlanger => 4
  | .m_pFilterEffect => 5
  | .m_pClipping => 6
  | .m_pVUMeter => 7

/-- Collaborators over integer samples that leave a readable mark: with a null input the
callee generates the sample `7`; otherwise it appends its digit to each of the first
`iBufferSize` samples. The collaborator state counts the calls; no track is loaded. -/
def engines : Engines Int Nat :=
  { process := fun c w pIn pOut iBufferSize =>
      match pIn with
      | none => (List.replicate iBufferSize 7 ++ pOut.drop iBufferSize, w + 1)
      | some inp =>
        ((inp.take iBufferSize).map (fun x => 10 * x + code c) ++ pOut.drop iBufferSize, w + 1)
    isTrackLoaded := fun _ => false }

/-- Vinyl control delivers stereo. -/
def stereo : AudioPathType → Nat := fun _ => 2

/-- A channel layout in which vinyl control delivers mono. -/
def mono : AudioPathType → Nat := fun _ => 1

/-- A channel layout in which vinyl control needs no channel at all. -/
def noChannels : AudioPathType → Nat := fun _ => 0

/-- A channel layout in which vinyl control delivers three channels. -/
def surround : AudioPathType → Nat := fun _ => 3

/-- The vinyl-control input. -/
def vinyl : AudioInput := { m_type := .VINYLCONTROL }

/-- A microphone input. -/
def microphone : AudioInput := { m_type := .OTHER 0 }

/-- A freshly constructed deck with `MAX_BUFFER_LEN = 8`. -/
def fresh : EngineDeck Int := EngineDeck.new 8

/-- Passthrough was rendered last callback and has been toggled off; three samples are
still buffered. -/
def draining : EngineDeck Int :=
  { m_sampleBuffer := { storage := [1, 2, 3, 4, 0], readCursor := 1, writeCursor := 4 }
    m_pConversionBuffer := List.replicate 4 0
    m_bPassthroughIsActive := false
    m_bPassthroughWasActive := true }

/-- Passthrough is on and three samples are buffered. -/
def feeding : EngineDeck Int :=
  { m_sampleBuffer := { storage := [1, 2, 3, 4, 0], readCursor := 1, writeCursor := 4 }
    m_pConversionBuffer := List.replicate 4 0
    m_bPassthroughIsActive := true
    m_bPassthroughWasActive := false }

/-- Passthrough is on, was rendered last callback, and the ring buffer has run empty. -/
def starved : EngineDeck Int :=
  { m_sampleBuffer := { storage := [5, 6, 0, 0, 0, 0, 0, 0, 0], readCursor := 2, writeCursor := 2 }
    m_pConversionBuffer := List.replicate 8 0
    m_bPassthroughIsActive := true
    m_bPassthroughWasActive := true }

end Example

end Mixxx

/-! ## Arithmetic of the cursors -/

namespace Mixxx

theorem mod_lt_two_mul (a n : Nat) (h : a < 2 * n) :
    a % n = if a < n then a else a - n := by
  split_ifs with h1
  · exact Nat.mod_eq_of_lt h1
  · rw [Nat.mod_eq_sub_mod (by omega)]
    exact Nat.mod_eq_of_lt (by omega)

theorem occupied_advance (s rc wc m : Nat) (hr : rc < s) (hw : wc < s)
    (hm : m ≤ (wc + s - rc) % s) :
    (wc + s - (rc + m) % s) % s = (wc + s - rc) % s - m := by
  have h1 := mod_lt_two_mul (wc + s - rc) s (by omega)
  rw [h1] at hm ⊢
  have h2 := mod_lt_two_mul (rc + m) s (by split_ifs at hm <;> omega)
  rw [h2]
  have h3 := mod_lt_two_mul (wc + s - if rc + m < s then rc + m else rc + m - s) s
    (by split_ifs <;> omega)
  rw [h3]
  split_ifs at hm ⊢ <;> omega

namespace CircularBuffer

section Cursors

variable {α : Type}

theorem occupied_lt_slots (cb : CircularBuffer α) (h : cb.WF) : cb.occupied < cb.slots :=
  Nat.mod_lt _ h.1

theorem isEmpty_iff_occupied (cb : CircularBuffer α) (h : cb.WF) :
    cb.isEmpty = true ↔ cb.occupied = 0 := by
  obtain ⟨h0, hr, hw⟩ := h
  unfold isEmpty occupied
  rw [mod_lt_two_mul (cb.writeCursor + cb.slots - cb.readCursor) cb.slots (by omega)]
  simp only [beq_iff_eq]
  split_ifs <;> omega

theorem skip_WF (cb : CircularBuffer α) (count : Nat) (h : cb.WF) : (cb.skip count).WF := by
  obtain ⟨h0, hr, hw⟩ := h
  exact ⟨h0, Nat.mod_lt _ h0, hw⟩

theorem occupied_skip (cb : CircularBuffer α) (count : Nat) (h : cb.WF) :
    (cb.skip count).occupied = cb.occupied - min count cb.occupied := by
  obtain ⟨h0, hr, hw⟩ := h
  exact occupied_advance cb.slots cb.readCursor cb.writeCursor _ hr hw (Nat.min_le_right _ _)

theorem skip_of_isEmpty (cb : CircularBuffer α) (count : Nat) (h : cb.WF)
    (he : cb.isEmpty = true) : cb.skip count = cb := by
  have h0 : cb.occupied = 0 := (isEmpty_iff_occupied cb h).1 he
  unfold skip
  rw [h0, Nat.min_zero, Nat.add_zero, Nat.mod_eq_of_lt h.2.1]

end Cursors

section Contents

variable {α : Type} [Zero α]

theorem length_contents (cb : CircularBuffer α) : cb.contents.length = cb.occupied := by
  simp [contents]

theorem contents_skip (cb : CircularBuffer α) (count : Nat) (h : cb.WF) :
    (cb.skip count).contents = cb.contents.drop (min count cb.occupied) := by
  have hocc := occupied_skip cb count h
  apply List.ext_getElem
  · simp [length_contents, hocc]
  · intro i h1 h2
    simp only [contents, List.getElem_map, List.getElem_range, List.getElem_drop]
    simp only [peek, skip, slots]
    rw [Nat.mod_add_mod, Nat.add_assoc]

theorem range_map_peek (cb : CircularBuffer α) (k : Nat) (hk : k ≤ cb.occupied) :
    (List.range k).map cb.peek = cb.contents.take k := by
  simp [contents, ← List.map_take, List.take_range, Nat.min_eq_left hk]

theorem read_eq (cb : CircularBuffer α) (destination : List α) (count : Nat)
    (h : min count cb.occupied ≤ destination.length) :
    cb.read destination count =
      .ok (min count cb.occupied,
           cb.contents.take (min count cb.occupied) ++ destination.drop (min count cb.occupied),
           cb.skip count) := by
  have hw : writeBlock destination 0 ((List.range (min count cb.occupied)).map cb.peek) =
      .ok (cb.contents.take (min count cb.occupied) ++
            destination.drop (min count cb.occupied)) := by
    unfold writeBlock
    rw [if_pos (by simpa using h), range_map_peek cb _ (Nat.min_le_right _ _)]
    simp [length_contents]
  unfold read
  simp only [hw]
  rfl

end Contents

end CircularBuffer

end Mixxx

/-! ## The render callback -/

namespace Mixxx

open EngineDeck

section Activity

variable {α W : Type}

/-- C4: `isActive()` is true exactly when `m_bPassthroughWasActive` holds with
`m_bPassthroughIsActive` false, or a track is loaded, or passthrough is effective
(`m_bPassthroughIsActive` and the ring buffer not empty). -/
theorem C4_isActive_iff (E : Engines α W) (d : EngineDeck α) (w : W) :
    d.isActive E w = true ↔
      (d.m_bPassthroughWasActive = true ∧ d.m_bPassthroughIsActive = false) ∨
      E.isTrackLoaded w = true ∨
      (d.m_bPassthroughIsActive = true ∧ d.m_sampleBuffer.isEmpty = false) := by
  unfold isActive isPassthroughActive
  cases d.m_bPassthroughWasActive <;> cases d.m_bPassthroughIsActive <;>
    cases E.isTrackLoaded w <;> cases d.m_sampleBuffer.isEmpty <;> simp

/-- C5, as stated, fails: the state `Example.starved` is reached from a fresh deck by switching
passthrough on, receiving one stereo frame and rendering two samples; there the next `process`
call takes the deactivation edge (silence, no collaborator called), yet `isActive()` is false. -/
theorem C5_counterexample :
    run 8 Example.stereo Example.engines
        [.slotPassingToggle (.finite 1), .receiveBuffer Example.vinyl [5, 6] 1,
         .process [0, 0] 2]
        { deck := Example.fresh, world := 0, written := 0 } =
      .ok { deck := Example.starved, world := 6, written := 2 } ∧
    Example.starved.isPassthroughActive = false ∧
    Example.starved.m_bPassthroughWasActive = true ∧
    Example.starved.process Example.engines 6 [9, 9] 2 =
      .ok ({ Example.starved with
               m_sampleBuffer := Example.starved.m_sampleBuffer.skip 2
               m_bPassthroughWasActive := false },
           { world := 6, pOut := [0, 0], calls := [] }) ∧
    Example.starved.isActive Example.engines 6 = false := by
  decide

/-- C5, amended: in every state in which the next `process` call takes the deactivation edge
(passthrough not effective, `m_bPassthroughWasActive` true), `isActive()` is true when
`m_bPassthroughIsActive` is false (the toggle was switched off) and otherwise is whether a track
is loaded. -/
theorem C5_isActive_on_deactivation_edge (E : Engines α W) (d : EngineDeck α) (w : W)
    (hoff : d.isPassthroughActive = false)
    (hwas : d.m_bPassthroughWasActive = true) :
    d.isActive E w = (!d.m_bPassthroughIsActive || E.isTrackLoaded w) := by
  unfold isActive
  rw [hoff, hwas]
  cases d.m_bPassthroughIsActive <;> simp

theorem C5_isActive_on_deactivation_edge_witness :
    Example.draining.isPassthroughActive = false ∧
    Example.draining.m_bPassthroughWasActive = true ∧
    Example.draining.isActive Example.engines 0 = true :=
  ⟨by decide, by decide,
   C5_isActive_on_deactivation_edge Example.engines Example.draining 0 (by decide) (by decide)⟩

end Activity

section Render

variable {α W : Type} [Zero α]

theorem applyGainZero_front (pOut : List α) (n : Nat) (h : n ≤ pOut.length) :
    SampleUtil.applyGainZero pOut 0 n = .ok (List.replicate n 0 ++ pOut.drop n) := by
  simp [SampleUtil.applyGainZero, writeBlock, h]

/-- C1: in every state in which passthrough is not effective and `m_bPassthroughWasActive` is
true, `process(pOut, n)` sets the `n` output samples to zero, discards `min(n, occupied)`
samples from the ring buffer through `skip`, clears `m_bPassthroughWasActive`, and returns with
no collaborator called (empty call log, collaborator state untouched). -/
theorem C1_deactivation_edge_step (E : Engines α W) (d : EngineDeck α) (w : W)
    (pOut : List α) (n : Nat)
    (hwf : d.m_sampleBuffer.WF)
    (hoff : d.isPassthroughActive = false)
    (hwas : d.m_bPassthroughWasActive = true)
    (hlen : n ≤ pOut.length) :
    d.process E w pOut n =
      .ok ({ d with m_sampleBuffer := d.m_sampleBuffer.skip n
                    m_bPassthroughWasActive := false },
           { world := w, pOut := List.replicate n 0 ++ pOut.drop n, calls := [] }) ∧
    (d.m_sampleBuffer.skip n).contents =
      d.m_sampleBuffer.contents.drop (min n d.m_sampleBuffer.occupied) ∧
    (d.m_sampleBuffer.skip n).occupied =
      d.m_sampleBuffer.occupied - min n d.m_sampleBuffer.occupied := by
  refine ⟨?_, CircularBuffer.contents_skip _ n hwf, CircularBuffer.occupied_skip _ n hwf⟩
  simp [process, fillSource, hoff, hwas, applyGainZero_front pOut n hlen]

theorem C1_deactivation_edge_step_witness :
    Example.draining.m_sampleBuffer.WF ∧
    Example.draining.isPassthroughActive = false ∧
    Example.draining.m_bPassthroughWasActive = true ∧
    2 ≤ [9, 9, (9 : Int)].length ∧
    (Example.draining.process Example.engines 0 [9, 9, 9] 2 =
      .ok ({ Example.draining with
               m_sampleBuffer := Example.draining.m_sampleBuffer.skip 2
               m_bPassthroughWasActive := false },
           { world := 0, pOut := List.replicate 2 0 ++ [9, 9, (9 : Int)].drop 2, calls := [] }) ∧
     (Example.draining.m_sampleBuffer.skip 2).contents =
       Example.draining.m_sampleBuffer.contents.drop
         (min 2 Example.draining.m_sampleBuffer.occupied) ∧
     (Example.draining.m_sampleBuffer.skip 2).occupied =
       Example.draining.m_sampleBuffer.occupied -
         min 2 Example.draining.m_sampleBuffer.occupied) :=
  ⟨by decide, by decide, by decide, by decide,
   C1_deactivation_edge_step Example.engines Example.draining 0 [9, 9, 9] 2
     (by decide) (by decide) (by decide) (by decide)⟩

/-- C2: from any state with `m_bPassthroughWasActive` true, after the toggle is switched off
(`v > 0` false) the next `process` call returns silence with no collaborator called, and the
`process` call after it (any buffer, any frame count, any collaborator state) takes the internal
path: `m_pBuffer` with a null input, then `m_pVinylSoundEmu`, then the stage chain. -/
theorem C2_deactivation_edge_two_steps (E : Engines α W) (d : EngineDeck α) (v : ControlValue)
    (w : W) (pOut : List α) (n : Nat) (w2 : W) (pOut2 : List α) (n2 : Nat)
    (hwas : d.m_bPassthroughWasActive = true)
    (hv : v.gtZero = false)
    (hlen : n ≤ pOut.length) :
    (d.slotPassingToggle v).process E w pOut n =
      .ok ({ d with m_bPassthroughIsActive := false
                    m_sampleBuffer := d.m_sampleBuffer.skip n
                    m_bPassthroughWasActive := false },
           { world := w, pOut := List.replicate n 0 ++ pOut.drop n, calls := [] }) ∧
    ({ d with m_bPassthroughIsActive := false
              m_sampleBuffer := d.m_sampleBuffer.skip n
              m_bPassthroughWasActive := false } : EngineDeck α).process E w2 pOut2 n2 =
      .ok ({ d with m_bPassthroughIsActive := false
                    m_sampleBuffer := d.m_sampleBuffer.skip n
                    m_bPassthroughWasActive := false },
           processChain E n2
             (Run.inPlace E .m_pVinylSoundEmu n2
               (Run.nullInput E .m_pBuffer n2 { world := w2, pOut := pOut2, calls := [] }))) ∧
    (processChain E n2
        (Run.inPlace E .m_pVinylSoundEmu n2
          (Run.nullInput E .m_pBuffer n2
            { world := w2, pOut := pOut2, calls := [] }))).calls.map
        (fun c => (c.callee, c.pIn.isNone)) =
      [(.m_pBuffer, true), (.m_pVinylSoundEmu, false), (.m_pPregain, false),
       (.m_pFilter, false), (.m_pFlanger, false), (.m_pFilterEffect, false),
       (.m_pClipping, false), (.m_pVUMeter, false)] := by
  refine ⟨?_, ?_, ?_⟩
  · simp [process, fillSource, slotPassingToggle, isPassthroughActive, hv, hwas,
      applyGainZero_front pOut n hlen]
  · simp [process, fillSource, isPassthroughActive]
  · simp [processChain, Run.inPlace, Run.nullInput]

theorem C2_deactivation_edge_two_steps_witness :
    Example.starved.m_bPassthroughWasActive = true ∧
    ControlValue.gtZero (.finite 0) = false ∧
    2 ≤ [9, 9, (9 : Int)].length ∧
    (Example.starved.slotPassingToggle (.finite 0)).process Example.engines 0 [9, 9, 9] 2 =
      .ok ({ Example.starved with
               m_bPassthroughIsActive := false
               m_sampleBuffer := Example.starved.m_sampleBuffer.skip 2
               m_bPassthroughWasActive := false },
           { world := 0, pOut := [0, 0, 9], calls := [] }) :=
  ⟨by decide, by decide, by decide,
   (C2_deactivation_edge_two_steps Example.engines Example.starved (.finite 0)
     0 [9, 9, 9] 2 0 [9, 9] 2 (by decide) (by decide) (by decide)).1⟩

theorem fillSource_internal (E : Engines α W) (d : EngineDeck α) (w : W)
    (pOut : List α) (n : Nat)
    (hoff : d.isPassthroughActive = false)
    (hwas : d.m_bPassthroughWasActive = false) :
    d.fillSource E w pOut n =
      .ok (d, Run.inPlace E .m_pVinylSoundEmu n
                (Run.nullInput E .m_pBuffer n { world := w, pOut := pOut, calls := [] }),
           false) := by
  have hd : ({ d with m_bPassthroughWasActive := false } : EngineDeck α) = d := by
    cases d; simp_all
  simp [fillSource, hoff, hwas, hd]

/-- C8: in every state in which passthrough is not effective and `m_bPassthroughWasActive` is
false, `process` first calls `m_pBuffer->process(0, pOut, n)` (null input), then
`m_pVinylSoundEmu->process(pOut, pOut, n)` in place, then the stage chain; the deck state,
ring buffer and `m_bPassthroughWasActive = false` included, is left as it was. -/
theorem C8_internal_path (E : Engines α W) (d : EngineDeck α) (w : W)
    (pOut : List α) (n : Nat)
    (hoff : d.isPassthroughActive = false)
    (hwas : d.m_bPassthroughWasActive = false) :
    d.fillSource E w pOut n =
      .ok (d,
           { world := (E.process .m_pVinylSoundEmu (E.process .m_pBuffer w none pOut n).2
                        (some (E.process .m_pBuffer w none pOut n).1)
                        (E.process .m_pBuffer w none pOut n).1 n).2
             pOut := (E.process .m_pVinylSoundEmu (E.process .m_pBuffer w none pOut n).2
                        (some (E.process .m_pBuffer w none pOut n).1)
                        (E.process .m_pBuffer w none pOut n).1 n).1
             calls := [{ callee := .m_pBuffer, pIn := none, pOut := pOut, iBufferSize := n },
                       { callee := .m_pVinylSoundEmu
                         pIn := some (E.process .m_pBuffer w none pOut n).1
                         pOut := (E.process .m_pBuffer w none pOut n).1
                         iBufferSize := n }] },
           false) ∧
    d.process E w pOut n =
      .ok (d, processChain E n
                (Run.inPlace E .m_pVinylSoundEmu n
                  (Run.nullInput E .m_pBuffer n { world := w, pOut := pOut, calls := [] }))) ∧
    ∀ d1 r, d.process E w pOut n = .ok (d1, r) →
      d1.m_sampleBuffer = d.m_sampleBuffer ∧ d1.m_bPassthroughWasActive = false := by
  have hf := fillSource_internal E d w pOut n hoff hwas
  have hp : d.process E w pOut n =
      .ok (d, processChain E n
                (Run.inPlace E .m_pVinylSoundEmu n
                  (Run.nullInput E .m_pBuffer n { world := w, pOut := pOut, calls := [] }))) := by
    unfold process
    rw [hf]
  refine ⟨?_, hp, ?_⟩
  · rw [hf]
    rfl
  · intro d1 r h
    rw [hp] at h
    cases h
    exact ⟨rfl, hwas⟩

theorem C8_internal_path_witness :
    Example.fresh.isPassthroughActive = false ∧
    Example.fresh.m_bPassthroughWasActive = false ∧
    Example.fresh.process Example.engines 0 [9, 9, 9] 2 =
      .ok (Example.fresh,
           processChain Example.engines 2
             (Run.inPlace Example.engines .m_pVinylSoundEmu 2
               (Run.nullInput Example.engines .m_pBuffer 2
                 { world := 0, pOut := [9, 9, 9], calls := [] }))) :=
  ⟨by decide, by decide,
   (C8_internal_path Example.engines Example.fresh 0 [9, 9, 9] 2 (by decide) (by decide)).2.1⟩

theorem fill_tail (c pOut : List α) (n : Nat) (hcn : c.length ≤ n) (hlen : n ≤ pOut.length) :
    (if c.length < n then
        SampleUtil.applyGainZero (c ++ pOut.drop c.length) c.length (n - c.length)
      else .ok (c ++ pOut.drop c.length)) =
      .ok (c ++ List.replicate (n - c.length) 0 ++ pOut.drop n) := by
  split_ifs with h
  · have h1 : c.length + (n - c.length) = n := by omega
    have h2 : n ≤ c.length + (pOut.length - c.length) := by omega
    simp [SampleUtil.applyGainZero, writeBlock, h1, h2, List.drop_append_eq_append_drop,
      List.take_append_eq_append_take, hcn]
  · have h1 : c.length = n := by omega
    simp [h1]

theorem fillSource_passthrough (E : Engines α W) (d : EngineDeck α) (w : W)
    (pOut : List α) (n : Nat)
    (hon : d.isPassthroughActive = true)
    (hlen : n ≤ pOut.length) :
    d.fillSource E w pOut n =
      .ok ({ d with m_sampleBuffer := d.m_sampleBuffer.skip n
                    m_bPassthroughWasActive := true },
           { world := w
             pOut := d.m_sampleBuffer.contents.take (min n d.m_sampleBuffer.occupied) ++
                     List.replicate (n - min n d.m_sampleBuffer.occupied) 0 ++ pOut.drop n
             calls := [] },
           false) := by
  have hr : min n d.m_sampleBuffer.occupied ≤ pOut.length :=
    Nat.le_trans (Nat.min_le_left _ _) hlen
  have hc : (d.m_sampleBuffer.contents.take (min n d.m_sampleBuffer.occupied)).length =
      min n d.m_sampleBuffer.occupied := by
    simp [CircularBuffer.length_contents]
  have ht := fill_tail (d.m_sampleBuffer.contents.take (min n d.m_sampleBuffer.occupied))
    pOut n (by rw [hc]; exact Nat.min_le_left _ _) hlen
  rw [hc] at ht
  unfold fillSource
  rw [if_pos hon, CircularBuffer.read_eq _ _ _ hr]
  simp only [ht]

/-- C6: in every state in which passthrough is effective, the buffer `process` hands to the
stage chain is the `r = min(n, occupied)` oldest ring-buffer samples in FIFO order followed by
`n - r` zeros; the ring buffer loses exactly those `r` samples; `m_bPassthroughWasActive` is set;
and the calls made are the stage chain only, neither `m_pBuffer` nor `m_pVinylSoundEmu`. -/
theorem C6_passthrough_consume (E : Engines α W) (d : EngineDeck α) (w : W)
    (pOut : List α) (n : Nat)
    (hwf : d.m_sampleBuffer.WF)
    (hon : d.isPassthroughActive = true)
    (hlen : n ≤ pOut.length) :
    d.process E w pOut n =
      .ok ({ d with m_sampleBuffer := d.m_sampleBuffer.skip n
                    m_bPassthroughWasActive := true },
           processChain E n
             { world := w
               pOut := d.m_sampleBuffer.contents.take (min n d.m_sampleBuffer.occupied) ++
                       List.replicate (n - min n d.m_sampleBuffer.occupied) 0 ++ pOut.drop n
               calls := [] }) ∧
    (d.m_sampleBuffer.skip n).contents =
      d.m_sampleBuffer.contents.drop (min n d.m_sampleBuffer.occupied) ∧
    ∀ src : Run α W, src.calls = [] →
      ((processChain E n src).calls.head? =
          some { callee := .m_pPregain, pIn := some src.pOut, pOut := src.pOut,
                 iBufferSize := n } ∧
       (processChain E n src).calls.map Invocation.callee =
          [.m_pPregain, .m_pFilter, .m_pFlanger, .m_pFilterEffect, .m_pClipping,
           .m_pVUMeter]) := by
  refine ⟨?_, CircularBuffer.contents_skip _ n hwf, ?_⟩
  · unfold process
    rw [fillSource_passthrough E d w pOut n hon hlen]
  · intro src hsrc
    simp [processChain, Run.inPlace, hsrc]

theorem C6_passthrough_consume_witness :
    Example.feeding.m_sampleBuffer.WF ∧
    Example.feeding.isPassthroughActive = true ∧
    4 ≤ [9, 9, 9, 9, (9 : Int)].length ∧
    Example.feeding.m_sampleBuffer.contents = [2, 3, 4] ∧
    Example.feeding.process Example.engines 0 [9, 9, 9, 9, 9] 4 =
      .ok ({ Example.feeding with
               m_sampleBuffer := Example.feeding.m_sampleBuffer.skip 4
               m_bPassthroughWasActive := true },
           processChain Example.engines 4
             { world := 0, pOut := [2, 3, 4, 0, 9], calls := [] }) :=
  ⟨by decide, by decide, by decide, by decide,
   (C6_passthrough_consume Example.engines Example.feeding 0 [9, 9, 9, 9, 9] 4
     (by decide) (by decide) (by decide)).1⟩

/-- C7, as stated, fails: on a fresh deck the rendered output carries the mark of six stages,
`m_pFilterEffect` between `m_pFlanger` and `m_pClipping` included, while the five-stage chain
of the specification applied to the same source-filled buffer gives a different output. -/
theorem C7_counterexample :
    Example.fresh.fillSource Example.engines 0 [9, 9] 2 =
      .ok (Example.fresh,
           Run.inPlace Example.engines .m_pVinylSoundEmu 2
             (Run.nullInput Example.engines .m_pBuffer 2
               { world := 0, pOut := [9, 9], calls := [] }),
           false) ∧
    (Example.fresh.process Example.engines 0 [9, 9] 2).map (fun p => p.2.pOut) =
      .ok [71234567, 71234567] ∧
    (specStageChain Example.engines 2
        (Run.inPlace Example.engines .m_pVinylSoundEmu 2
          (Run.nullInput Example.engines .m_pBuffer 2
            { world := 0, pOut := [9, 9], calls := [] }))).pOut =
      [7123467, 7123467] := by
  decide

/-- C7, amended: every `process` call that does not take the deactivation edge returns, and its
output is the source-filled buffer passed through the six stages pregain, filter, flanger,
filter effect, clipping, VU meter, in that order, each called in place with the unchanged
frame count. -/
theorem C7_stage_chain (E : Engines α W) (d : EngineDeck α) (w : W)
    (pOut : List α) (n : Nat)
    (hedge : ¬ (d.isPassthroughActive = false ∧ d.m_bPassthroughWasActive = true))
    (hlen : n ≤ pOut.length) :
    ∃ d1 src,
      d.fillSource E w pOut n = .ok (d1, src, false) ∧
      d.process E w pOut n =
        .ok (d1,
             Run.inPlace E .m_pVUMeter n
               (Run.inPlace E .m_pClipping n
                 (Run.inPlace E .m_pFilterEffect n
                   (Run.inPlace E .m_pFlanger n
                     (Run.inPlace E .m_pFilter n
                       (Run.inPlace E .m_pPregain n src)))))) ∧
      ∀ out, d.process E w pOut n = .ok (d1, out) →
        (out.calls.drop src.calls.length).map Invocation.callee =
          [.m_pPregain, .m_pFilter, .m_pFlanger, .m_pFilterEffect, .m_pClipping,
           .m_pVUMeter] ∧
        ∀ c ∈ out.calls.drop src.calls.length, c.pIn = some c.pOut ∧ c.iBufferSize = n := by
  have key : ∃ d1 src, d.fillSource E w pOut n = .ok (d1, src, false) := by
    cases hon : d.isPassthroughActive
    · have hwas : d.m_bPassthroughWasActive = false := by
        cases h : d.m_bPassthroughWasActive
        · rfl
        · exact absurd ⟨hon, h⟩ hedge
      exact ⟨_, _, fillSource_internal E d w pOut n hon hwas⟩
    · exact ⟨_, _, fillSource_passthrough E d w pOut n hon hlen⟩
  obtain ⟨d1, src, hsrc⟩ := key
  have hp : d.process E w pOut n =
      .ok (d1,
           Run.inPlace E .m_pVUMeter n
             (Run.inPlace E .m_pClipping n
               (Run.inPlace E .m_pFilterEffect n
                 (Run.inPlace E .m_pFlanger n
                   (Run.inPlace E .m_pFilter n
                     (Run.inPlace E .m_pPregain n src)))))) := by
    unfold process
    rw [hsrc]
    rfl
  refine ⟨d1, src, hsrc, hp, ?_⟩
  intro out hout
  rw [hp] at hout
  cases hout
  simp [Run.inPlace]

theorem C7_stage_chain_witness :
    ¬ (Example.feeding.isPassthroughActive = false ∧
       Example.feeding.m_bPassthroughWasActive = true) ∧
    4 ≤ [9, 9, 9, 9, (9 : Int)].length ∧
    ∃ d1 src,
      Example.feeding.fillSource Example.engines 0 [9, 9, 9, 9, 9] 4 = .ok (d1, src, false) ∧
      Example.feeding.process Example.engines 0 [9, 9, 9, 9, 9] 4 =
        .ok (d1,
             Run.inPlace Example.engines .m_pVUMeter 4
               (Run.inPlace Example.engines .m_pClipping 4
                 (Run.inPlace Example.engines .m_pFilterEffect 4
                   (Run.inPlace Example.engines .m_pFlanger 4
                     (Run.inPlace Example.engines .m_pFilter 4
                       (Run.inPlace Example.engines .m_pPregain 4 src)))))) :=
  ⟨by decide, by decide,
   match C7_stage_chain Example.engines Example.feeding 0 [9, 9, 9, 9, 9] 4
     (by decide) (by decide) with
   | ⟨d1, src, h1, h2, _⟩ => ⟨d1, src, h1, h2⟩⟩

end Render

end Mixxx

/-! ## Passthrough stays ineffective while the ring buffer is empty -/

namespace Mixxx

open EngineDeck

section Empty

variable {α W : Type} [Zero α]

theorem CircularBuffer.write_zero (cb cb1 : CircularBuffer α) (samples : List α) (count : Nat)
    (h : cb.WF) (hw : cb.write samples count = .ok (0, cb1)) : cb1 = cb := by
  simp only [CircularBuffer.write] at hw
  split_ifs at hw with hlen
  simp only [Except.ok.injEq, Prod.mk.injEq] at hw
  obtain ⟨h0, h1⟩ := hw
  rw [← h1, h0]
  simp [Nat.mod_eq_of_lt h.2.2]

theorem writeOffered_zero (d : EngineDeck α) (pWriteBuffer : List α) (samplesToWrite : Nat)
    (r : Received α) (h : d.m_sampleBuffer.WF)
    (hr : writeOffered d pWriteBuffer samplesToWrite = .ok r) (h0 : r.samplesWritten = 0) :
    r.deck.m_sampleBuffer = d.m_sampleBuffer := by
  unfold writeOffered at hr
  cases hw : d.m_sampleBuffer.write pWriteBuffer samplesToWrite with
  | error e => simp [hw] at hr
  | ok p =>
    obtain ⟨k, rb⟩ := p
    simp only [hw, Except.ok.injEq] at hr
    subst hr
    simp only at h0
    subst h0
    exact CircularBuffer.write_zero _ _ _ _ h hw

theorem receiveBuffer_inactive (MAX_BUFFER_LEN : Nat)
    (channelsNeededForType : AudioPathType → Nat)
    (d : EngineDeck α) (input : AudioInput) (pBuffer : List α) (nFrames : Nat)
    (h : d.m_bPassthroughIsActive = false) :
    d.receiveBuffer MAX_BUFFER_LEN channelsNeededForType input pBuffer nFrames =
      .ok { deck := d, offered := none, samplesWritten := 0 } := by
  simp [receiveBuffer, h]

theorem receiveBuffer_wrong_type (MAX_BUFFER_LEN : Nat)
    (channelsNeededForType : AudioPathType → Nat)
    (d : EngineDeck α) (input : AudioInput) (pBuffer : List α) (nFrames : Nat)
    (h : input.getType ≠ AudioPathType.VINYLCONTROL) :
    d.receiveBuffer MAX_BUFFER_LEN channelsNeededForType input pBuffer nFrames =
      .ok { deck := d, offered := none, samplesWritten := 0 } := by
  simp [receiveBuffer, h]

theorem receiveBuffer_mono (MAX_BUFFER_LEN : Nat)
    (channelsNeededForType : AudioPathType → Nat)
    (d : EngineDeck α) (input : AudioInput) (pBuffer : List α) (nFrames : Nat)
    (hon : d.m_bPassthroughIsActive = true)
    (hty : input.getType = AudioPathType.VINYLCONTROL)
    (hch : channelsNeededForType AudioPathType.VINYLCONTROL = 1) :
    d.receiveBuffer MAX_BUFFER_LEN channelsNeededForType input pBuffer nFrames =
      match monoToStereo pBuffer (min nFrames MAX_BUFFER_LEN) 0 d.m_pConversionBuffer with
      | .error e => .error e
      | .ok conversion =>
        writeOffered { d with m_pConversionBuffer := conversion } conversion
          (min nFrames MAX_BUFFER_LEN * 2) := by
  have hmin : (if nFrames > MAX_BUFFER_LEN then MAX_BUFFER_LEN else nFrames) =
      min nFrames MAX_BUFFER_LEN := by
    split_ifs <;> omega
  simp [receiveBuffer, hon, hty, hch, hmin]

theorem receiveBuffer_stereo (MAX_BUFFER_LEN : Nat)
    (channelsNeededForType : AudioPathType → Nat)
    (d : EngineDeck α) (input : AudioInput) (pBuffer : List α) (nFrames : Nat)
    (hon : d.m_bPassthroughIsActive = true)
    (hty : input.getType = AudioPathType.VINYLCONTROL)
    (hch : channelsNeededForType AudioPathType.VINYLCONTROL = 2) :
    d.receiveBuffer MAX_BUFFER_LEN channelsNeededForType input pBuffer nFrames =
      writeOffered d pBuffer (min nFrames (MAX_BUFFER_LEN / 2) * 2) := by
  have hmin : (if nFrames > MAX_BUFFER_LEN / 2 then MAX_BUFFER_LEN / 2 else nFrames) =
      min nFrames (MAX_BUFFER_LEN / 2) := by
    split_ifs <;> omega
  simp [receiveBuffer, hon, hty, hch, hmin]

theorem receiveBuffer_unsupported (MAX_BUFFER_LEN : Nat)
    (channelsNeededForType : AudioPathType → Nat)
    (d : EngineDeck α) (input : AudioInput) (pBuffer : List α) (nFrames : Nat)
    (hon : d.m_bPassthroughIsActive = true)
    (hty : input.getType = AudioPathType.VINYLCONTROL)
    (hch : 3 ≤ channelsNeededForType AudioPathType.VINYLCONTROL) :
    d.receiveBuffer MAX_BUFFER_LEN channelsNeededForType input pBuffer nFrames =
      .ok { deck := d, offered := none, samplesWritten := 0 } := by
  have h0 : channelsNeededForType AudioPathType.VINYLCONTROL ≠ 0 := by omega
  have h1 : channelsNeededForType AudioPathType.VINYLCONTROL ≠ 1 := by omega
  have h2 : channelsNeededForType AudioPathType.VINYLCONTROL ≠ 2 := by omega
  simp [receiveBuffer, hon, hty, h0, h1, h2]

theorem receiveBuffer_zero_channels (MAX_BUFFER_LEN : Nat)
    (channelsNeededForType : AudioPathType → Nat)
    (d : EngineDeck α) (input : AudioInput) (pBuffer : List α) (nFrames : Nat)
    (hon : d.m_bPassthroughIsActive = true)
    (hty : input.getType = AudioPathType.VINYLCONTROL)
    (hch : channelsNeededForType AudioPathType.VINYLCONTROL = 0) :
    d.receiveBuffer MAX_BUFFER_LEN channelsNeededForType input pBuffer nFrames =
      .error .divisionByZero := by
  simp [receiveBuffer, hon, hty, hch]

theorem receiveBuffer_zero (MAX_BUFFER_LEN : Nat) (channelsNeededForType : AudioPathType → Nat)
    (d : EngineDeck α) (input : AudioInput) (pBuffer : List α) (nFrames : Nat)
    (r : Received α) (h : d.m_sampleBuffer.WF)
    (hr : d.receiveBuffer MAX_BUFFER_LEN channelsNeededForType input pBuffer nFrames = .ok r)
    (h0 : r.samplesWritten = 0) :
    r.deck.m_sampleBuffer = d.m_sampleBuffer := by
  cases hon : d.m_bPassthroughIsActive
  · rw [receiveBuffer_inactive _ _ _ _ _ _ hon] at hr
    cases hr; rfl
  by_cases hty : input.getType = AudioPathType.VINYLCONTROL
  swap
  · rw [receiveBuffer_wrong_type _ _ _ _ _ _ hty] at hr
    cases hr; rfl
  rcases Nat.lt_or_ge (channelsNeededForType AudioPathType.VINYLCONTROL) 3 with hlt | hge
  swap
  · rw [receiveBuffer_unsupported _ _ _ _ _ _ hon hty hge] at hr
    cases hr; rfl
  have hcases : channelsNeededForType AudioPathType.VINYLCONTROL = 0 ∨
      channelsNeededForType AudioPathType.VINYLCONTROL = 1 ∨
      channelsNeededForType AudioPathType.VINYLCONTROL = 2 := by omega
  rcases hcases with hc | hc | hc
  · rw [receiveBuffer_zero_channels _ _ _ _ _ _ hon hty hc] at hr
    cases hr
  · rw [receiveBuffer_mono _ _ _ _ _ _ hon hty hc] at hr
    cases hm : monoToStereo pBuffer (min nFrames MAX_BUFFER_LEN) 0 d.m_pConversionBuffer with
    | error e => simp [hm] at hr
    | ok conversion =>
      simp only [hm] at hr
      exact writeOffered_zero { d with m_pConversionBuffer := conversion } _ _ r h hr h0
  · rw [receiveBuffer_stereo _ _ _ _ _ _ hon hty hc] at hr
    exact writeOffered_zero _ _ _ r h hr h0

theorem process_keeps_empty (E : Engines α W) (d d1 : EngineDeck α) (w : W) (pOut : List α)
    (n : Nat) (r : Run α W) (h : d.m_sampleBuffer.WF) (he : d.m_sampleBuffer.isEmpty = true)
    (hp : d.process E w pOut n = .ok (d1, r)) :
    d1.m_sampleBuffer = d.m_sampleBuffer := by
  have hoff : d.isPassthroughActive = false := by simp [isPassthroughActive, he]
  cases hwas : d.m_bPassthroughWasActive
  · rw [process, fillSource_internal E d w pOut n hoff hwas] at hp
    cases hp
    rfl
  · unfold process fillSource at hp
    simp only [hoff, hwas, if_true, Bool.false_eq_true, if_false] at hp
    cases hz : SampleUtil.applyGainZero pOut 0 n with
    | error e => simp [hz] at hp
    | ok pOut1 =>
      simp only [hz, Except.ok.injEq, Prod.mk.injEq] at hp
      rw [← hp.1]
      exact CircularBuffer.skip_of_isEmpty _ n h he

theorem step_written_mono (MAX_BUFFER_LEN : Nat) (channelsNeededForType : AudioPathType → Nat)
    (E : Engines α W) (s s1 : Sys α W) (op : Op α)
    (hs : step MAX_BUFFER_LEN channelsNeededForType E s op = .ok s1) :
    s.written ≤ s1.written := by
  cases op with
  | process pOut n =>
    unfold step at hs
    cases hp : s.deck.process E s.world pOut n with
    | error e => simp [hp] at hs
    | ok p => simp only [hp, Except.ok.injEq] at hs; subst hs; exact Nat.le_refl _
  | receiveBuffer input pBuffer nFrames =>
    unfold step at hs
    cases hp : s.deck.receiveBuffer MAX_BUFFER_LEN channelsNeededForType input pBuffer nFrames with
    | error e => simp [hp] at hs
    | ok p => simp only [hp, Except.ok.injEq] at hs; subst hs; exact Nat.le_add_right _ _
  | onInputConnected input => cases hs; exact Nat.le_refl _
  | onInputDisconnected input => cases hs; exact Nat.le_refl _
  | slotPassingToggle v => cases hs; exact Nat.le_refl _

theorem run_written_mono (MAX_BUFFER_LEN : Nat) (channelsNeededForType : AudioPathType → Nat)
    (E : Engines α W) (ops : List (Op α)) :
    ∀ s s1 : Sys α W, run MAX_BUFFER_LEN channelsNeededForType E ops s = .ok s1 →
      s.written ≤ s1.written := by
  induction ops with
  | nil => intro s s1 h; cases h; exact Nat.le_refl _
  | cons op ops ih =>
    intro s s1 h
    unfold run at h
    cases hs : step MAX_BUFFER_LEN channelsNeededForType E s op with
    | error e => simp [hs] at h
    | ok s2 =>
      simp only [hs] at h
      exact Nat.le_trans (step_written_mono _ _ _ _ _ _ hs) (ih s2 s1 h)

theorem step_keeps_empty (MAX_BUFFER_LEN : Nat) (channelsNeededForType : AudioPathType → Nat)
    (E : Engines α W) (s s1 : Sys α W) (op : Op α)
    (h : s.deck.m_sampleBuffer.WF) (he : s.deck.m_sampleBuffer.isEmpty = true)
    (hs : step MAX_BUFFER_LEN channelsNeededForType E s op = .ok s1)
    (hw : s1.written = s.written) :
    s1.deck.m_sampleBuffer.WF ∧ s1.deck.m_sampleBuffer.isEmpty = true := by
  cases op with
  | process pOut n =>
    unfold step at hs
    cases hp : s.deck.process E s.world pOut n with
    | error e => simp [hp] at hs
    | ok p =>
      obtain ⟨d1, r⟩ := p
      simp only [hp, Except.ok.injEq] at hs
      subst hs
      simp only [process_keeps_empty E _ _ _ _ _ _ h he hp]
      exact ⟨h, he⟩
  | receiveBuffer input pBuffer nFrames =>
    unfold step at hs
    cases hp : s.deck.receiveBuffer MAX_BUFFER_LEN channelsNeededForType input pBuffer nFrames with
    | error e => simp [hp] at hs
    | ok p =>
      simp only [hp, Except.ok.injEq] at hs
      subst hs
      simp only at hw
      simp only [receiveBuffer_zero _ _ _ _ _ _ p h hp (by omega)]
      exact ⟨h, he⟩
  | onInputConnected input =>
    cases hs
    simp only [onInputConnected]
    split_ifs
    · exact ⟨h, he⟩
    · exact ⟨⟨h.1, h.1, h.1⟩, rfl⟩
  | onInputDisconnected input =>
    cases hs
    simp only [onInputDisconnected]
    split_ifs
    · exact ⟨h, he⟩
    · exact ⟨⟨h.1, h.1, h.1⟩, rfl⟩
  | slotPassingToggle v => cases hs; exact ⟨h, he⟩

theorem run_keeps_empty (MAX_BUFFER_LEN : Nat) (channelsNeededForType : AudioPathType → Nat)
    (E : Engines α W) (ops : List (Op α)) :
    ∀ s s1 : Sys α W, s.deck.m_sampleBuffer.WF → s.deck.m_sampleBuffer.isEmpty = true →
      run MAX_BUFFER_LEN channelsNeededForType E ops s = .ok s1 → s1.written = s.written →
      s1.deck.m_sampleBuffer.isEmpty = true := by
  induction ops with
  | nil => intro s s1 _ he h _; cases h; exact he
  | cons op ops ih =>
    intro s s1 hwf he h hw
    unfold run at h
    cases hs : step MAX_BUFFER_LEN channelsNeededForType E s op with
    | error e => simp [hs] at h
    | ok s2 =>
      simp only [hs] at h
      have m1 := step_written_mono _ _ _ _ _ _ hs
      have m2 := run_written_mono _ _ _ _ _ _ h
      have k := step_keeps_empty _ _ _ _ _ _ hwf he hs (by omega)
      exact ih s2 s1 k.1 k.2 h (by omega)

/-- C3: `isPassthroughActive()` is true if and only if `m_bPassthroughIsActive` is true and the
ring buffer is not empty; and from a state whose ring buffer is empty (the toggle may just have
been switched on), after any sequence of calls during which `receiveBuffer` has written no
sample, `isPassthroughActive()` is still false. -/
theorem C3_isPassthroughActive (MAX_BUFFER_LEN : Nat)
    (channelsNeededForType : AudioPathType → Nat) (E : Engines α W) :
    (∀ d : EngineDeck α, d.isPassthroughActive = true ↔
        d.m_bPassthroughIsActive = true ∧ d.m_sampleBuffer.isEmpty = false) ∧
    ∀ (ops : List (Op α)) (s s1 : Sys α W),
      s.deck.m_sampleBuffer.WF →
      s.deck.m_sampleBuffer.isEmpty = true →
      run MAX_BUFFER_LEN channelsNeededForType E ops s = .ok s1 →
      s1.written = s.written →
      s1.deck.isPassthroughActive = false := by
  constructor
  · intro d
    simp [isPassthroughActive]
  · intro ops s s1 hwf hempty hrun hnone
    have he := run_keeps_empty MAX_BUFFER_LEN channelsNeededForType E ops s s1 hwf hempty hrun
      hnone
    simp [isPassthroughActive, he]

theorem C3_isPassthroughActive_witness :
    (Example.fresh.m_sampleBuffer.WF ∧
     Example.fresh.m_sampleBuffer.isEmpty = true ∧
     run 8 Example.stereo Example.engines
        [.slotPassingToggle (.finite 1), .process [9, 9] 2,
         .receiveBuffer Example.microphone [5, 6] 1, .onInputConnected Example.vinyl,
         .receiveBuffer Example.vinyl [] 0, .process [9, 9] 2]
        { deck := Example.fresh, world := 0, written := 0 } =
      .ok { deck := Example.fresh.slotPassingToggle (.finite 1), world := 16, written := 0 }) ∧
    (Example.fresh.slotPassingToggle (.finite 1)).m_bPassthroughIsActive = true ∧
    (Example.fresh.slotPassingToggle (.finite 1)).isPassthroughActive = false :=
  ⟨⟨by decide, by decide, by decide⟩, by decide,
   (C3_isPassthroughActive 8 Example.stereo Example.engines).2
      [.slotPassingToggle (.finite 1), .process [9, 9] 2,
       .receiveBuffer Example.microphone [5, 6] 1, .onInputConnected Example.vinyl,
       .receiveBuffer Example.vinyl [] 0, .process [9, 9] 2]
      { deck := Example.fresh, world := 0, written := 0 }
      { deck := Example.fresh.slotPassingToggle (.finite 1), world := 16, written := 0 }
      (by decide) (by decide) (by decide) rfl⟩

end Empty

/-! ## The representation invariant holds in every reachable state -/

section Invariant

variable {α W : Type} [Zero α]

theorem CircularBuffer.new_WF (length : Nat) (h : 0 < length) :
    (CircularBuffer.new length : CircularBuffer α).WF := by
  simp [CircularBuffer.WF, CircularBuffer.new, CircularBuffer.slots, h]

theorem length_foldl_set {β : Type} (f : Nat → Nat) (g : Nat → β) (ks : List Nat) :
    ∀ st : List β, (ks.foldl (fun st k => st.set (f k) (g k)) st).length = st.length := by
  induction ks with
  | nil => intro st; rfl
  | cons k ks ih => intro st; simp [List.foldl_cons, ih]

theorem CircularBuffer.write_WF (cb cb1 : CircularBuffer α) (samples : List α)
    (count written : Nat) (h : cb.WF) (hw : cb.write samples count = .ok (written, cb1)) :
    cb1.WF := by
  simp only [CircularBuffer.write] at hw
  split_ifs at hw with hlen
  simp only [Except.ok.injEq, Prod.mk.injEq] at hw
  obtain ⟨_, h1⟩ := hw
  subst h1
  have hl := length_foldl_set (fun k => (cb.writeCursor + k) % cb.storage.length)
    (fun k => samples.getD k 0)
    (List.range (min count (cb.capacity - cb.occupied))) cb.storage
  obtain ⟨h0, hr, _⟩ := h
  simp only [CircularBuffer.slots] at h0 hr
  simp only [CircularBuffer.WF, CircularBuffer.slots, hl]
  exact ⟨h0, hr, Nat.mod_lt _ h0⟩

theorem CircularBuffer.read_ok_skip (cb rb : CircularBuffer α) (destination dest : List α)
    (count k : Nat) (h : cb.read destination count = .ok (k, dest, rb)) :
    rb = cb.skip count := by
  simp only [CircularBuffer.read] at h
  cases hwb : writeBlock destination 0
      ((List.range (min count cb.occupied)).map cb.peek) with
  | error e => simp [hwb] at h
  | ok p =>
    simp only [hwb, Except.ok.injEq, Prod.mk.injEq] at h
    rw [← h.2.2]
    rfl

theorem fillSource_ring (E : Engines α W) (d d1 : EngineDeck α) (w : W) (pOut : List α)
    (n : Nat) (r : Run α W) (b : Bool)
    (hf : d.fillSource E w pOut n = .ok (d1, r, b)) :
    d1.m_sampleBuffer = d.m_sampleBuffer ∨ d1.m_sampleBuffer = d.m_sampleBuffer.skip n := by
  cases hon : d.isPassthroughActive
  · cases hwas : d.m_bPassthroughWasActive
    · rw [fillSource_internal E d w pOut n hon hwas] at hf
      cases hf
      exact Or.inl rfl
    · unfold fillSource at hf
      simp only [hon, hwas, if_true, Bool.false_eq_true, if_false] at hf
      cases hz : SampleUtil.applyGainZero pOut 0 n with
      | error e => simp [hz] at hf
      | ok pOut1 =>
        simp only [hz, Except.ok.injEq, Prod.mk.injEq] at hf
        rw [← hf.1]
        exact Or.inr rfl
  · unfold fillSource at hf
    simp only [hon, if_true] at hf
    cases hread : d.m_sampleBuffer.read pOut n with
    | error e => simp [hread] at hf
    | ok p =>
      obtain ⟨k, pOut1, rb⟩ := p
      simp only [hread] at hf
      cases hfill : (if k < n then SampleUtil.applyGainZero pOut1 k (n - k)
          else Except.ok pOut1) with
      | error e => simp [hfill] at hf
      | ok pOut2 =>
        simp only [hfill, Except.ok.injEq, Prod.mk.injEq] at hf
        rw [← hf.1]
        exact Or.inr (CircularBuffer.read_ok_skip _ _ _ _ _ _ hread)

theorem process_ring (E : Engines α W) (d d1 : EngineDeck α) (w : W) (pOut : List α)
    (n : Nat) (r : Run α W)
    (hp : d.process E w pOut n = .ok (d1, r)) :
    d1.m_sampleBuffer = d.m_sampleBuffer ∨ d1.m_sampleBuffer = d.m_sampleBuffer.skip n := by
  unfold process at hp
  cases hf : d.fillSource E w pOut n with
  | error e => simp [hf] at hp
  | ok p =>
    obtain ⟨d2, r2, b⟩ := p
    have hring := fillSource_ring E d d2 w pOut n r2 b hf
    cases b <;> simp only [hf, Except.ok.injEq, Prod.mk.injEq] at hp <;> rw [← hp.1] <;>
      exact hring

theorem receiveBuffer_WF (MAX_BUFFER_LEN : Nat) (channelsNeededForType : AudioPathType → Nat)
    (d : EngineDeck α) (input : AudioInput) (pBuffer : List α) (nFrames : Nat)
    (r : Received α) (h : d.m_sampleBuffer.WF)
    (hr : d.receiveBuffer MAX_BUFFER_LEN channelsNeededForType input pBuffer nFrames = .ok r) :
    r.deck.m_sampleBuffer.WF := by
  have key : ∀ (d0 : EngineDeck α) (buf : List α) (cnt : Nat),
      d0.m_sampleBuffer = d.m_sampleBuffer → writeOffered d0 buf cnt = .ok r →
      r.deck.m_sampleBuffer.WF := by
    intro d0 buf cnt hd0 hwo
    unfold writeOffered at hwo
    cases hw : d0.m_sampleBuffer.write buf cnt with
    | error e => simp [hw] at hwo
    | ok p =>
      obtain ⟨k, rb⟩ := p
      simp only [hw, Except.ok.injEq] at hwo
      subst hwo
      rw [hd0] at hw
      exact CircularBuffer.write_WF _ _ _ _ _ h hw
  cases hon : d.m_bPassthroughIsActive
  · rw [receiveBuffer_inactive _ _ _ _ _ _ hon] at hr
    cases hr; exact h
  by_cases hty : input.getType = AudioPathType.VINYLCONTROL
  swap
  · rw [receiveBuffer_wrong_type _ _ _ _ _ _ hty] at hr
    cases hr; exact h
  rcases Nat.lt_or_ge (channelsNeededForType AudioPathType.VINYLCONTROL) 3 with hlt | hge
  swap
  · rw [receiveBuffer_unsupported _ _ _ _ _ _ hon hty hge] at hr
    cases hr; exact h
  have hcases : channelsNeededForType AudioPathType.VINYLCONTROL = 0 ∨
      channelsNeededForType AudioPathType.VINYLCONTROL = 1 ∨
      channelsNeededForType AudioPathType.VINYLCONTROL = 2 := by omega
  rcases hcases with hc | hc | hc
  · rw [receiveBuffer_zero_channels _ _ _ _ _ _ hon hty hc] at hr
    cases hr
  · rw [receiveBuffer_mono _ _ _ _ _ _ hon hty hc] at hr
    cases hm : monoToStereo pBuffer (min nFrames MAX_BUFFER_LEN) 0 d.m_pConversionBuffer with
    | error e => simp [hm] at hr
    | ok conversion =>
      simp only [hm] at hr
      exact key { d with m_pConversionBuffer := conversion } _ _ rfl hr
  · rw [receiveBuffer_stereo _ _ _ _ _ _ hon hty hc] at hr
    exact key d _ _ rfl hr

theorem process_WF (E : Engines α W) (d d1 : EngineDeck α) (w : W) (pOut : List α)
    (n : Nat) (r : Run α W) (h : d.m_sampleBuffer.WF)
    (hp : d.process E w pOut n = .ok (d1, r)) :
    d1.m_sampleBuffer.WF := by
  rcases process_ring E d d1 w pOut n r hp with h1 | h1
  · rw [h1]; exact h
  · rw [h1]; exact CircularBuffer.skip_WF _ n h

theorem step_WF (MAX_BUFFER_LEN : Nat) (channelsNeededForType : AudioPathType → Nat)
    (E : Engines α W) (s s1 : Sys α W) (op : Op α)
    (h : s.deck.m_sampleBuffer.WF)
    (hs : step MAX_BUFFER_LEN channelsNeededForType E s op = .ok s1) :
    s1.deck.m_sampleBuffer.WF := by
  cases op with
  | process pOut n =>
    unfold step at hs
    cases hp : s.deck.process E s.world pOut n with
    | error e => simp [hp] at hs
    | ok p =>
      obtain ⟨d1, r⟩ := p
      simp only [hp, Except.ok.injEq] at hs
      subst hs
      exact process_WF E _ _ _ _ _ _ h hp
  | receiveBuffer input pBuffer nFrames =>
    unfold step at hs
    cases hp : s.deck.receiveBuffer MAX_BUFFER_LEN channelsNeededForType input pBuffer nFrames with
    | error e => simp [hp] at hs
    | ok p =>
      simp only [hp, Except.ok.injEq] at hs
      subst hs
      exact receiveBuffer_WF _ _ _ _ _ _ p h hp
  | onInputConnected input =>
    cases hs
    simp only [onInputConnected]
    split_ifs
    · exact h
    · exact ⟨h.1, h.1, h.1⟩
  | onInputDisconnected input =>
    cases hs
    simp only [onInputDisconnected]
    split_ifs
    · exact h
    · exact ⟨h.1, h.1, h.1⟩
  | slotPassingToggle v => cases hs; exact h

theorem run_WF (MAX_BUFFER_LEN : Nat) (channelsNeededForType : AudioPathType → Nat)
    (E : Engines α W) (ops : List (Op α)) :
    ∀ s s1 : Sys α W, s.deck.m_sampleBuffer.WF →
      run MAX_BUFFER_LEN channelsNeededForType E ops s = .ok s1 →
      s1.deck.m_sampleBuffer.WF := by
  induction ops with
  | nil => intro s s1 h hr; cases hr; exact h
  | cons op ops ih =>
    intro s s1 h hr
    unfold run at hr
    cases hs : step MAX_BUFFER_LEN channelsNeededForType E s op with
    | error e => simp [hs] at hr
    | ok s2 =>
      simp only [hs] at hr
      exact ih s2 s1 (step_WF _ _ _ _ _ _ h hs) hr

theorem reachable_WF (MAX_BUFFER_LEN : Nat) (channelsNeededForType : AudioPathType → Nat)
    (E : Engines α W) (ops : List (Op α)) (w : W) (s1 : Sys α W)
    (hr : run MAX_BUFFER_LEN channelsNeededForType E ops
      { deck := EngineDeck.new MAX_BUFFER_LEN, world := w, written := 0 } = .ok s1) :
    s1.deck.m_sampleBuffer.WF :=
  run_WF _ _ _ ops _ s1 (CircularBuffer.new_WF _ (Nat.succ_pos _)) hr

end Invariant

end Mixxx

/-! ## Mono to stereo conversion -/

namespace Mixxx

open EngineDeck

section Conversion

variable {α : Type}

theorem monoToStereo_ok (pBuffer : List α) :
    ∀ (remaining i : Nat) (conversion : List α),
      i + remaining ≤ pBuffer.length → 2 * (i + remaining) ≤ conversion.length →
      ∃ cv, monoToStereo pBuffer remaining i conversion = .ok cv ∧
        cv.length = conversion.length ∧
        (∀ k, i ≤ k → k < i + remaining →
          cv[2 * k]? = pBuffer[k]? ∧ cv[2 * k + 1]? = pBuffer[k]?) ∧
        (∀ j, j < 2 * i → cv[j]? = conversion[j]?) := by
  intro remaining
  induction remaining with
  | zero =>
    intro i conversion _ _
    exact ⟨conversion, rfl, rfl, fun k h1 h2 => absurd h2 (by omega), fun j _ => rfl⟩
  | succ m ih =>
    intro i conversion hin hconv
    have hi : i < pBuffer.length := by omega
    have hload : loadAt pBuffer i = .ok pBuffer[i] := by
      simp [loadAt, List.getElem?_eq_getElem hi]
    have h0 : i * 2 + 0 < conversion.length := by omega
    have h1 : i * 2 + 1 < (conversion.set (i * 2 + 0) pBuffer[i]).length := by
      rw [List.length_set]; omega
    obtain ⟨cv, hc, hlen, hpairs, hlow⟩ := ih (i + 1)
      ((conversion.set (i * 2 + 0) pBuffer[i]).set (i * 2 + 1) pBuffer[i])
      (by omega) (by simp only [List.length_set]; omega)
    refine ⟨cv, ?_, ?_, ?_, ?_⟩
    · simp only [monoToStereo, hload, storeAt, h0, h1, if_true]
      exact hc
    · simpa using hlen
    · intro k hk1 hk2
      rcases Nat.eq_or_lt_of_le hk1 with heq | hlt
      · subst heq
        have e0 := hlow (2 * i) (by omega)
        have e1 := hlow (2 * i + 1) (by omega)
        rw [e0, e1]
        have hi2 : 2 * i < conversion.length := by omega
        have hi3 : 2 * i + 1 < conversion.length := by omega
        have a : i * 2 + 0 = 2 * i := by omega
        have b : i * 2 + 1 = 2 * i + 1 := by omega
        rw [a, b]
        simp [List.getElem?_set, hi2, hi3, List.getElem?_eq_getElem hi]
      · exact hpairs k (by omega) (by omega)
    · intro j hj
      rw [hlow j (by omega)]
      have a : i * 2 ≠ j := by omega
      have b : i * 2 + 1 ≠ j := by omega
      simp [List.getElem?_set, a, b]

theorem monoToStereo_fault (pBuffer : List α) :
    ∀ (remaining i : Nat) (conversion : List α),
      0 < remaining → i + remaining ≤ pBuffer.length →
      conversion.length < 2 * (i + remaining) →
      monoToStereo pBuffer remaining i conversion = .error .outOfBounds := by
  intro remaining
  induction remaining with
  | zero => intro i conversion h; exact absurd h (by omega)
  | succ m ih =>
    intro i conversion _ hin hconv
    have hi : i < pBuffer.length := by omega
    have hload : loadAt pBuffer i = .ok pBuffer[i] := by
      simp [loadAt, List.getElem?_eq_getElem hi]
    by_cases h0 : i * 2 + 0 < conversion.length
    · by_cases h1 : i * 2 + 1 < (conversion.set (i * 2 + 0) pBuffer[i]).length
      · simp only [monoToStereo, hload, storeAt, h0, h1, if_true]
        rw [List.length_set] at h1
        exact ih (i + 1) _ (by omega) (by omega) (by simp only [List.length_set]; omega)
      · simp only [monoToStereo, hload, storeAt, h0, h1, if_true, if_false]
    · simp only [monoToStereo, hload, storeAt, h0, if_false]

end Conversion

section Receive

variable {α : Type} [Zero α]

theorem writeOffered_ok (d : EngineDeck α) (pWriteBuffer : List α) (samplesToWrite : Nat)
    (h : samplesToWrite ≤ pWriteBuffer.length) :
    ∃ samplesWritten rb,
      d.m_sampleBuffer.write pWriteBuffer samplesToWrite = .ok (samplesWritten, rb) ∧
      writeOffered d pWriteBuffer samplesToWrite =
        .ok { deck := { d with m_sampleBuffer := rb }
              offered := some (pWriteBuffer, samplesToWrite)
              samplesWritten := samplesWritten } := by
  have hmin : min samplesToWrite (d.m_sampleBuffer.capacity - d.m_sampleBuffer.occupied) ≤
      pWriteBuffer.length := Nat.le_trans (Nat.min_le_left _ _) h
  have hw : d.m_sampleBuffer.write pWriteBuffer samplesToWrite =
      .ok (min samplesToWrite (d.m_sampleBuffer.capacity - d.m_sampleBuffer.occupied),
        { d.m_sampleBuffer with
          storage := (List.range (min samplesToWrite
              (d.m_sampleBuffer.capacity - d.m_sampleBuffer.occupied))).foldl
            (fun st k => st.set ((d.m_sampleBuffer.writeCursor + k) % d.m_sampleBuffer.slots)
              (pWriteBuffer.getD k 0)) d.m_sampleBuffer.storage
          writeCursor := (d.m_sampleBuffer.writeCursor + min samplesToWrite
              (d.m_sampleBuffer.capacity - d.m_sampleBuffer.occupied)) %
            d.m_sampleBuffer.slots }) := by
    simp only [CircularBuffer.write]
    rw [if_pos hmin]
  refine ⟨_, _, hw, ?_⟩
  unfold writeOffered
  rw [hw]

/-- C9 fails on the code: with one input channel the clamp of line 148 is
`MAX_BUFFER_LEN / 1`, not `MAX_BUFFER_LEN / 2`, so for every mono input of more than
`MAX_BUFFER_LEN / 2` frames the conversion loop stores outside the conversion buffer of
`MAX_BUFFER_LEN` samples. -/
theorem C9_mono_conversion_out_of_bounds (MAX_BUFFER_LEN : Nat)
    (channelsNeededForType : AudioPathType → Nat)
    (d : EngineDeck α) (input : AudioInput) (pBuffer : List α) (nFrames : Nat)
    (hon : d.m_bPassthroughIsActive = true)
    (hty : input.getType = AudioPathType.VINYLCONTROL)
    (hch : channelsNeededForType AudioPathType.VINYLCONTROL = 1)
    (hconv : d.m_pConversionBuffer.length = MAX_BUFFER_LEN)
    (hpos : 0 < MAX_BUFFER_LEN)
    (hbig : MAX_BUFFER_LEN / 2 < nFrames)
    (hin : nFrames ≤ pBuffer.length) :
    d.receiveBuffer MAX_BUFFER_LEN channelsNeededForType input pBuffer nFrames =
      .error .outOfBounds := by
  rw [receiveBuffer_mono _ _ _ _ _ _ hon hty hch]
  rw [monoToStereo_fault pBuffer (min nFrames MAX_BUFFER_LEN) 0 d.m_pConversionBuffer
    (by omega) (by omega) (by omega)]

theorem C9_mono_conversion_out_of_bounds_witness :
    (Example.fresh.slotPassingToggle (.finite 1)).m_bPassthroughIsActive = true ∧
    Example.vinyl.getType = AudioPathType.VINYLCONTROL ∧
    Example.mono AudioPathType.VINYLCONTROL = 1 ∧
    (Example.fresh.slotPassingToggle (.finite 1)).m_pConversionBuffer.length = 8 ∧
    0 < 8 ∧ 8 / 2 < 5 ∧ 5 ≤ [1, 2, 3, 4, (5 : Int)].length ∧
    (Example.fresh.slotPassingToggle (.finite 1)).receiveBuffer 8 Example.mono Example.vinyl
        [1, 2, 3, 4, 5] 5 = .error .outOfBounds :=
  ⟨by decide, by decide, by decide, by decide, by decide, by decide, by decide,
   C9_mono_conversion_out_of_bounds 8 Example.mono
     (Example.fresh.slotPassingToggle (.finite 1)) Example.vinyl [1, 2, 3, 4, 5] 5
     (by decide) (by decide) (by decide) (by decide) (by decide) (by decide) (by decide)⟩

/-- C10: for a mono input of `N` frames with `N ≤ MAX_BUFFER_LEN / 2`, delivered while
`m_bPassthroughIsActive` is true, `receiveBuffer` returns and the block it hands to the ring
buffer's `write` has `2N` samples, with sample `2k` and sample `2k+1` both equal to input
frame `k` for every `k < N`. -/
theorem C10_mono_upmix (MAX_BUFFER_LEN : Nat)
    (channelsNeededForType : AudioPathType → Nat)
    (d : EngineDeck α) (input : AudioInput) (pBuffer : List α) (nFrames : Nat)
    (hon : d.m_bPassthroughIsActive = true)
    (hty : input.getType = AudioPathType.VINYLCONTROL)
    (hch : channelsNeededForType AudioPathType.VINYLCONTROL = 1)
    (hconv : d.m_pConversionBuffer.length = MAX_BUFFER_LEN)
    (hN : nFrames ≤ MAX_BUFFER_LEN / 2)
    (hin : nFrames ≤ pBuffer.length) :
    ∃ r block,
      d.receiveBuffer MAX_BUFFER_LEN channelsNeededForType input pBuffer nFrames = .ok r ∧
      r.offered = some (block, 2 * nFrames) ∧
      2 * nFrames ≤ block.length ∧
      ∀ k, k < nFrames →
        pBuffer[k]?.isSome = true ∧ block[2 * k]? = pBuffer[k]? ∧
        block[2 * k + 1]? = pBuffer[k]? := by
  have hmin : min nFrames MAX_BUFFER_LEN = nFrames := by omega
  obtain ⟨cv, hcv, hlen, hpairs, _⟩ :=
    monoToStereo_ok pBuffer nFrames 0 d.m_pConversionBuffer (by omega) (by omega)
  obtain ⟨samplesWritten, rb, _, hw⟩ :=
    writeOffered_ok { d with m_pConversionBuffer := cv } cv (nFrames * 2) (by omega)
  have hcvlen : 2 * nFrames ≤ cv.length := by omega
  refine ⟨{ deck := { d with m_pConversionBuffer := cv, m_sampleBuffer := rb }
            offered := some (cv, nFrames * 2)
            samplesWritten := samplesWritten }, cv, ?_, ?_, hcvlen, ?_⟩
  · rw [receiveBuffer_mono _ _ _ _ _ _ hon hty hch, hmin]
    simp only [hcv]
    exact hw
  · simp [Nat.mul_comm]
  · intro k hk
    have hk1 : k < pBuffer.length := by omega
    exact ⟨by simp [List.getElem?_eq_getElem hk1], hpairs k (by omega) (by omega)⟩

theorem C10_mono_upmix_witness :
    (Example.fresh.slotPassingToggle (.finite 1)).m_bPassthroughIsActive = true ∧
    Example.vinyl.getType = AudioPathType.VINYLCONTROL ∧
    Example.mono AudioPathType.VINYLCONTROL = 1 ∧
    (Example.fresh.slotPassingToggle (.finite 1)).m_pConversionBuffer.length = 8 ∧
    3 ≤ 8 / 2 ∧ 3 ≤ [1, 2, (3 : Int)].length ∧
    ((Example.fresh.slotPassingToggle (.finite 1)).receiveBuffer 8 Example.mono Example.vinyl
        [1, 2, 3] 3).map (fun r => r.offered) =
      .ok (some ([1, 1, 2, 2, 3, 3, 0, 0], 6)) ∧
    ∃ r block,
      (Example.fresh.slotPassingToggle (.finite 1)).receiveBuffer 8 Example.mono Example.vinyl
        [1, 2, 3] 3 = .ok r ∧
      r.offered = some (block, 2 * 3) ∧
      2 * 3 ≤ block.length ∧
      ∀ k, k < 3 →
        [1, 2, (3 : Int)][k]?.isSome = true ∧ block[2 * k]? = [1, 2, (3 : Int)][k]? ∧
        block[2 * k + 1]? = [1, 2, (3 : Int)][k]? :=
  ⟨by decide, by decide, by decide, by decide, by decide, by decide, by decide,
   C10_mono_upmix 8 Example.mono
     (Example.fresh.slotPassingToggle (.finite 1)) Example.vinyl [1, 2, 3] 3
     (by decide) (by decide) (by decide) (by decide) (by decide) (by decide)⟩

end Receive

end Mixxx

/-! ## Input validation and the frame of every entry point -/

namespace Mixxx

open EngineDeck

section Frame

variable {α W : Type} [Zero α]

theorem receiveBuffer_cases (MAX_BUFFER_LEN : Nat) (channelsNeededForType : AudioPathType → Nat)
    (d : EngineDeck α) (input : AudioInput) (pBuffer : List α) (nFrames : Nat)
    (r : Received α)
    (hr : d.receiveBuffer MAX_BUFFER_LEN channelsNeededForType input pBuffer nFrames = .ok r) :
    r = { deck := d, offered := none, samplesWritten := 0 } ∨
    ∃ (d0 : EngineDeck α) (buf : List α) (cnt : Nat),
      d0.m_sampleBuffer = d.m_sampleBuffer ∧
      d0.m_bPassthroughIsActive = d.m_bPassthroughIsActive ∧
      d0.m_bPassthroughWasActive = d.m_bPassthroughWasActive ∧
      writeOffered d0 buf cnt = .ok r := by
  cases hon : d.m_bPassthroughIsActive
  · rw [receiveBuffer_inactive _ _ _ _ _ _ hon] at hr
    cases hr; exact Or.inl rfl
  by_cases hty : input.getType = AudioPathType.VINYLCONTROL
  swap
  · rw [receiveBuffer_wrong_type _ _ _ _ _ _ hty] at hr
    cases hr; exact Or.inl rfl
  rcases Nat.lt_or_ge (channelsNeededForType AudioPathType.VINYLCONTROL) 3 with hlt | hge
  swap
  · rw [receiveBuffer_unsupported _ _ _ _ _ _ hon hty hge] at hr
    cases hr; exact Or.inl rfl
  have hcases : channelsNeededForType AudioPathType.VINYLCONTROL = 0 ∨
      channelsNeededForType AudioPathType.VINYLCONTROL = 1 ∨
      channelsNeededForType AudioPathType.VINYLCONTROL = 2 := by omega
  rcases hcases with hc | hc | hc
  · rw [receiveBuffer_zero_channels _ _ _ _ _ _ hon hty hc] at hr
    cases hr
  · rw [receiveBuffer_mono _ _ _ _ _ _ hon hty hc] at hr
    cases hm : monoToStereo pBuffer (min nFrames MAX_BUFFER_LEN) 0 d.m_pConversionBuffer with
    | error e => simp [hm] at hr
    | ok conversion =>
      simp only [hm] at hr
      exact Or.inr ⟨{ d with m_pConversionBuffer := conversion }, _, _, rfl, hon.symm ▸ rfl,
        rfl, hr⟩
  · rw [receiveBuffer_stereo _ _ _ _ _ _ hon hty hc] at hr
    exact Or.inr ⟨d, _, _, rfl, hon.symm ▸ rfl, rfl, hr⟩

theorem writeOffered_flags (d0 : EngineDeck α) (buf : List α) (cnt : Nat) (r : Received α)
    (hr : writeOffered d0 buf cnt = .ok r) :
    r.deck.m_bPassthroughIsActive = d0.m_bPassthroughIsActive ∧
    r.deck.m_bPassthroughWasActive = d0.m_bPassthroughWasActive := by
  unfold writeOffered at hr
  cases hw : d0.m_sampleBuffer.write buf cnt with
  | error e => simp [hw] at hr
  | ok q =>
    simp only [hw, Except.ok.injEq] at hr
    subst hr
    exact ⟨rfl, rfl⟩

theorem receiveBuffer_flags (MAX_BUFFER_LEN : Nat) (channelsNeededForType : AudioPathType → Nat)
    (d : EngineDeck α) (input : AudioInput) (pBuffer : List α) (nFrames : Nat)
    (r : Received α)
    (hr : d.receiveBuffer MAX_BUFFER_LEN channelsNeededForType input pBuffer nFrames = .ok r) :
    r.deck.m_bPassthroughIsActive = d.m_bPassthroughIsActive ∧
    r.deck.m_bPassthroughWasActive = d.m_bPassthroughWasActive := by
  rcases receiveBuffer_cases _ _ _ _ _ _ r hr with h | ⟨d0, buf, cnt, _, h1, h2, hw⟩
  · subst h; exact ⟨rfl, rfl⟩
  · have hf := writeOffered_flags d0 buf cnt r hw
    exact ⟨hf.1.trans h1, hf.2.trans h2⟩

theorem fillSource_frame (E : Engines α W) (d d1 : EngineDeck α) (w : W) (pOut : List α)
    (n : Nat) (r : Run α W) (b : Bool)
    (hf : d.fillSource E w pOut n = .ok (d1, r, b)) :
    d1.m_bPassthroughIsActive = d.m_bPassthroughIsActive ∧
    d1.m_bPassthroughWasActive = d.isPassthroughActive := by
  cases hon : d.isPassthroughActive
  · cases hwas : d.m_bPassthroughWasActive
    · rw [fillSource_internal E d w pOut n hon hwas] at hf
      cases hf
      exact ⟨rfl, hwas⟩
    · unfold fillSource at hf
      simp only [hon, hwas, if_true, Bool.false_eq_true, if_false] at hf
      cases hz : SampleUtil.applyGainZero pOut 0 n with
      | error e => simp [hz] at hf
      | ok pOut1 =>
        simp only [hz, Except.ok.injEq, Prod.mk.injEq] at hf
        rw [← hf.1]
        exact ⟨rfl, rfl⟩
  · unfold fillSource at hf
    simp only [hon, if_true] at hf
    cases hread : d.m_sampleBuffer.read pOut n with
    | error e => simp [hread] at hf
    | ok q =>
      obtain ⟨k, pOut1, rb⟩ := q
      simp only [hread] at hf
      cases hfill : (if k < n then SampleUtil.applyGainZero pOut1 k (n - k)
          else Except.ok pOut1) with
      | error e => simp [hfill] at hf
      | ok pOut2 =>
        simp only [hfill, Except.ok.injEq, Prod.mk.injEq] at hf
        rw [← hf.1]
        exact ⟨rfl, rfl⟩

theorem process_frame (E : Engines α W) (d d1 : EngineDeck α) (w : W) (pOut : List α)
    (n : Nat) (r : Run α W)
    (hp : d.process E w pOut n = .ok (d1, r)) :
    d1.m_bPassthroughIsActive = d.m_bPassthroughIsActive ∧
    d1.m_bPassthroughWasActive = d.isPassthroughActive := by
  unfold process at hp
  cases hf : d.fillSource E w pOut n with
  | error e => simp [hf] at hp
  | ok q =>
    obtain ⟨d2, r2, b⟩ := q
    have hfr := fillSource_frame E d d2 w pOut n r2 b hf
    cases b <;> simp only [hf, Except.ok.injEq, Prod.mk.injEq] at hp <;> rw [← hp.1] <;>
      exact hfr

theorem process_returns (E : Engines α W) (d : EngineDeck α) (w : W) (pOut : List α)
    (n : Nat) (hlen : n ≤ pOut.length) :
    ∃ d1 r, d.process E w pOut n = .ok (d1, r) := by
  cases hon : d.isPassthroughActive
  · cases hwas : d.m_bPassthroughWasActive
    · exact ⟨_, _, by rw [process, fillSource_internal E d w pOut n hon hwas]⟩
    · refine ⟨{ d with m_sampleBuffer := d.m_sampleBuffer.skip n
                       m_bPassthroughWasActive := false },
        { world := w, pOut := List.replicate n 0 ++ pOut.drop n, calls := [] }, ?_⟩
      simp [process, fillSource, hon, hwas, applyGainZero_front pOut n hlen]
  · exact ⟨_, _, by rw [process, fillSource_passthrough E d w pOut n hon hlen]⟩

/-- C11 fails on the code at channel count 0: with passthrough on and a vinyl-control input,
the clamp of line 148 divides `MAX_BUFFER_LEN` by `iChannels` before the channel count is
looked at, so a channel count of 0 is a division by zero; for every channel count of 3 or
more `receiveBuffer` returns with nothing offered, nothing written and the deck unchanged. -/
theorem C11_unsupported_channel_count (MAX_BUFFER_LEN : Nat)
    (channelsNeededForType : AudioPathType → Nat)
    (d : EngineDeck α) (input : AudioInput) (pBuffer : List α) (nFrames : Nat)
    (hon : d.m_bPassthroughIsActive = true)
    (hty : input.getType = AudioPathType.VINYLCONTROL) :
    (channelsNeededForType AudioPathType.VINYLCONTROL = 0 →
      d.receiveBuffer MAX_BUFFER_LEN channelsNeededForType input pBuffer nFrames =
        .error .divisionByZero) ∧
    (3 ≤ channelsNeededForType AudioPathType.VINYLCONTROL →
      d.receiveBuffer MAX_BUFFER_LEN channelsNeededForType input pBuffer nFrames =
        .ok { deck := d, offered := none, samplesWritten := 0 }) :=
  ⟨fun h0 => receiveBuffer_zero_channels _ _ _ _ _ _ hon hty h0,
   fun h3 => receiveBuffer_unsupported _ _ _ _ _ _ hon hty h3⟩

theorem C11_unsupported_channel_count_witness :
    (Example.fresh.slotPassingToggle (.finite 1)).m_bPassthroughIsActive = true ∧
    Example.vinyl.getType = AudioPathType.VINYLCONTROL ∧
    Example.noChannels AudioPathType.VINYLCONTROL = 0 ∧
    (Example.fresh.slotPassingToggle (.finite 1)).receiveBuffer 8 Example.noChannels
        Example.vinyl [1, 2] 1 = .error .divisionByZero :=
  ⟨by decide, by decide, by decide,
   (C11_unsupported_channel_count 8 Example.noChannels
     (Example.fresh.slotPassingToggle (.finite 1)) Example.vinyl [1, 2] 1
     (by decide) (by decide)).1 (by decide)⟩

/-- C13: when `m_bPassthroughIsActive` is false, or the input is not of type `VINYLCONTROL`,
`receiveBuffer` returns with the deck (ring buffer content and cursors, conversion buffer,
both flags) exactly as it was, nothing offered to the ring buffer and nothing written. -/
theorem C13_rejected_input_no_side_effects (MAX_BUFFER_LEN : Nat)
    (channelsNeededForType : AudioPathType → Nat)
    (d : EngineDeck α) (input : AudioInput) (pBuffer : List α) (nFrames : Nat)
    (hrej : d.m_bPassthroughIsActive = false ∨ input.getType ≠ AudioPathType.VINYLCONTROL) :
    d.receiveBuffer MAX_BUFFER_LEN channelsNeededForType input pBuffer nFrames =
      .ok { deck := d, offered := none, samplesWritten := 0 } := by
  rcases hrej with h | h
  · exact receiveBuffer_inactive _ _ _ _ _ _ h
  · exact receiveBuffer_wrong_type _ _ _ _ _ _ h

theorem C13_rejected_input_no_side_effects_witness :
    (Example.feeding.m_bPassthroughIsActive = false ∨
      Example.microphone.getType ≠ AudioPathType.VINYLCONTROL) ∧
    Example.feeding.receiveBuffer 4 Example.stereo Example.microphone [7, 8] 1 =
      .ok { deck := Example.feeding, offered := none, samplesWritten := 0 } :=
  ⟨Or.inr (by decide),
   C13_rejected_input_no_side_effects 4 Example.stereo Example.feeding Example.microphone
     [7, 8] 1 (Or.inr (by decide))⟩

/-- C14: `onInputConnected` and `onInputDisconnected` give the same state as each other; with a
`VINYLCONTROL` input that state is the old one with the ring buffer cleared, so the ring
buffer is empty and `isPassthroughActive()` is false; with any other input type the state is
unchanged. -/
theorem C14_connection_events (d : EngineDeck α) (input : AudioInput) :
    d.onInputConnected input = d.onInputDisconnected input ∧
    (input.getType = AudioPathType.VINYLCONTROL →
      d.onInputConnected input = { d with m_sampleBuffer := d.m_sampleBuffer.clear } ∧
      (d.onInputConnected input).m_sampleBuffer.isEmpty = true ∧
      (d.onInputConnected input).m_sampleBuffer.contents = [] ∧
      (d.onInputConnected input).isPassthroughActive = false) ∧
    (input.getType ≠ AudioPathType.VINYLCONTROL → d.onInputConnected input = d) := by
  refine ⟨rfl, ?_, ?_⟩
  · intro h
    simp [onInputConnected, h, isPassthroughActive, CircularBuffer.clear,
      CircularBuffer.isEmpty, CircularBuffer.contents, CircularBuffer.occupied]
  · intro h
    simp [onInputConnected, h]

theorem C14_connection_events_witness :
    Example.vinyl.getType = AudioPathType.VINYLCONTROL ∧
    Example.feeding.m_sampleBuffer.contents = [2, 3, 4] ∧
    Example.feeding.isPassthroughActive = true ∧
    (Example.feeding.onInputDisconnected Example.vinyl).m_sampleBuffer.contents = [] ∧
    (Example.feeding.onInputConnected Example.vinyl).isPassthroughActive = false ∧
    Example.microphone.getType ≠ AudioPathType.VINYLCONTROL ∧
    Example.feeding.onInputConnected Example.microphone = Example.feeding :=
  ⟨by decide, by decide, by decide, by decide,
   ((C14_connection_events Example.feeding Example.vinyl).2.1 (by decide)).2.2.2,
   by decide,
   (C14_connection_events Example.feeding Example.microphone).2.2 (by decide)⟩

/-- C15: `slotPassingToggle(v)` sets `m_bPassthroughIsActive` to `v > 0` and changes nothing
else; `process`, `receiveBuffer`, `onInputConnected` and `onInputDisconnected` leave
`m_bPassthroughIsActive` as it was; `receiveBuffer`, `onInputConnected` and
`onInputDisconnected` leave `m_bPassthroughWasActive` as it was. The queries `isActive` and
`isPassthroughActive` contain no assignment and are functions of the state here. -/
theorem C15_flag_ownership (MAX_BUFFER_LEN : Nat)
    (channelsNeededForType : AudioPathType → Nat) (E : Engines α W) (d : EngineDeck α) :
    (∀ v : ControlValue,
      d.slotPassingToggle v = { d with m_bPassthroughIsActive := v.gtZero } ∧
      (d.slotPassingToggle v).m_bPassthroughWasActive = d.m_bPassthroughWasActive) ∧
    (∀ (w : W) (pOut : List α) (n : Nat) (d1 : EngineDeck α) (r : Run α W),
      d.process E w pOut n = .ok (d1, r) →
      d1.m_bPassthroughIsActive = d.m_bPassthroughIsActive) ∧
    (∀ (input : AudioInput) (pBuffer : List α) (nFrames : Nat) (r : Received α),
      d.receiveBuffer MAX_BUFFER_LEN channelsNeededForType input pBuffer nFrames = .ok r →
      r.deck.m_bPassthroughIsActive = d.m_bPassthroughIsActive ∧
      r.deck.m_bPassthroughWasActive = d.m_bPassthroughWasActive) ∧
    (∀ input : AudioInput,
      (d.onInputConnected input).m_bPassthroughIsActive = d.m_bPassthroughIsActive ∧
      (d.onInputConnected input).m_bPassthroughWasActive = d.m_bPassthroughWasActive ∧
      (d.onInputDisconnected input).m_bPassthroughIsActive = d.m_bPassthroughIsActive ∧
      (d.onInputDisconnected input).m_bPassthroughWasActive = d.m_bPassthroughWasActive) := by
  refine ⟨fun v => ⟨rfl, rfl⟩, ?_, ?_, ?_⟩
  · intro w pOut n d1 r hp
    exact (process_frame E d d1 w pOut n r hp).1
  · intro input pBuffer nFrames r hr
    exact receiveBuffer_flags _ _ _ _ _ _ r hr
  · intro input
    unfold onInputConnected onInputDisconnected
    split_ifs <;> exact ⟨rfl, rfl, rfl, rfl⟩

theorem C15_flag_ownership_witness :
    Example.feeding.process Example.engines 0 [9, 9, 9, 9, 9] 4 =
      .ok ({ Example.feeding with
               m_sampleBuffer := Example.feeding.m_sampleBuffer.skip 4
               m_bPassthroughWasActive := true },
           processChain Example.engines 4
             { world := 0, pOut := [2, 3, 4, 0, 9], calls := [] }) ∧
    ({ Example.feeding with
         m_sampleBuffer := Example.feeding.m_sampleBuffer.skip 4
         m_bPassthroughWasActive := true } : EngineDeck Int).m_bPassthroughIsActive =
      Example.feeding.m_bPassthroughIsActive :=
  ⟨by decide,
   (C15_flag_ownership 4 Example.stereo Example.engines Example.feeding).2.1
     0 [9, 9, 9, 9, 9] 4
     { Example.feeding with
         m_sampleBuffer := Example.feeding.m_sampleBuffer.skip 4
         m_bPassthroughWasActive := true }
     (processChain Example.engines 4 { world := 0, pOut := [2, 3, 4, 0, 9], calls := [] })
     (by decide)⟩

/-- C19: every `process` call on an output buffer of at least `n` samples returns, and
afterwards `m_bPassthroughWasActive` equals `isPassthroughActive()` as it was when the call
started: true after the passthrough branch, false after the deactivation edge and after the
internal branch. -/
theorem C19_wasActive_after_process (E : Engines α W) (d : EngineDeck α) (w : W)
    (pOut : List α) (n : Nat)
    (hlen : n ≤ pOut.length) :
    ∃ d1 r, d.process E w pOut n = .ok (d1, r) ∧
      d1.m_bPassthroughWasActive = d.isPassthroughActive ∧
      d1.m_bPassthroughWasActive =
        (d.m_bPassthroughIsActive && !d.m_sampleBuffer.isEmpty) := by
  obtain ⟨d1, r, hp⟩ := process_returns E d w pOut n hlen
  have h := (process_frame E d d1 w pOut n r hp).2
  exact ⟨d1, r, hp, h, h⟩

theorem C19_wasActive_after_process_witness :
    4 ≤ [9, 9, 9, 9, (9 : Int)].length ∧
    Example.feeding.isPassthroughActive = true ∧
    ∃ d1 r, Example.feeding.process Example.engines 0 [9, 9, 9, 9, 9] 4 = .ok (d1, r) ∧
      d1.m_bPassthroughWasActive = Example.feeding.isPassthroughActive ∧
      d1.m_bPassthroughWasActive =
        (Example.feeding.m_bPassthroughIsActive && !Example.feeding.m_sampleBuffer.isEmpty) :=
  ⟨by decide, by decide,
   C19_wasActive_after_process Example.engines Example.feeding 0 [9, 9, 9, 9, 9] 4
     (by decide)⟩

end Frame

end Mixxx

/-! ## The write side of the ring buffer -/

namespace Mixxx

section WriteArith

theorem occupied_write_advance (s rc wc k : Nat) (hr : rc < s) (hw : wc < s)
    (hk : k ≤ s - 1 - (wc + s - rc) % s) :
    ((wc + k) % s + s - rc) % s = (wc + s - rc) % s + k := by
  have h1 := mod_lt_two_mul (wc + s - rc) s (by omega)
  rw [h1] at hk ⊢
  have h2 := mod_lt_two_mul (wc + k) s (by split_ifs at hk <;> omega)
  rw [h2]
  have h3 := mod_lt_two_mul ((if wc + k < s then wc + k else wc + k - s) + s - rc) s
    (by split_ifs <;> omega)
  rw [h3]
  split_ifs at hk ⊢ <;> omega

theorem write_slot_eq (s rc wc i : Nat) (hr : rc < s) (hw : wc < s)
    (hi : (wc + s - rc) % s + i < s) :
    (wc + i) % s = (rc + ((wc + s - rc) % s + i)) % s := by
  have h1 := mod_lt_two_mul (wc + s - rc) s (by omega)
  rw [h1] at hi ⊢
  have h2 := mod_lt_two_mul (wc + i) s (by split_ifs at hi <;> omega)
  have h3 := mod_lt_two_mul (rc + ((if wc + s - rc < s then wc + s - rc else wc + s - rc - s) + i))
    s (by split_ifs at hi ⊢ <;> omega)
  rw [h2, h3]
  split_ifs at hi ⊢ <;> omega

theorem slot_injective (s rc a b : Nat) (hr : rc < s) (ha : a < s) (hb : b < s)
    (h : (rc + a) % s = (rc + b) % s) : a = b := by
  rw [mod_lt_two_mul (rc + a) s (by omega), mod_lt_two_mul (rc + b) s (by omega)] at h
  split_ifs at h <;> omega

end WriteArith

section FoldSet

variable {β : Type}

theorem foldl_set_range_succ (f : Nat → Nat) (g : Nat → β) (k : Nat) (st : List β) :
    (List.range (k + 1)).foldl (fun st i => st.set (f i) (g i)) st =
      ((List.range k).foldl (fun st i => st.set (f i) (g i)) st).set (f k) (g k) := by
  rw [List.range_succ, List.foldl_append]
  rfl

theorem getElem?_foldl_set_other (f : Nat → Nat) (g : Nat → β) (st : List β) (j : Nat) :
    ∀ k : Nat, (∀ i, i < k → f i ≠ j) →
      ((List.range k).foldl (fun st i => st.set (f i) (g i)) st)[j]? = st[j]? := by
  intro k
  induction k with
  | zero => intro _; rfl
  | succ k ih =>
    intro h
    rw [foldl_set_range_succ, List.getElem?_set_ne (h k (Nat.lt_succ_self k))]
    exact ih (fun i hi => h i (Nat.lt_succ_of_lt hi))

theorem getElem?_foldl_set_hit (f : Nat → Nat) (g : Nat → β) (st : List β) :
    ∀ k : Nat, (∀ i i2, i < k → i2 < k → f i = f i2 → i = i2) →
      ∀ i, i < k → f i < st.length →
        ((List.range k).foldl (fun st i => st.set (f i) (g i)) st)[f i]? = some (g i) := by
  intro k
  induction k with
  | zero => intro _ i hi; exact absurd hi (Nat.not_lt_zero i)
  | succ k ih =>
    intro hinj i hi hlen
    rw [foldl_set_range_succ]
    rcases Nat.eq_or_lt_of_le (Nat.le_of_lt_succ hi) with heq | hlt
    · subst heq
      rw [List.getElem?_set_self (by rw [length_foldl_set]; exact hlen)]
    · have hne : f k ≠ f i := by
        intro hfe
        have := hinj k i (Nat.lt_succ_self k) hi hfe
        omega
      rw [List.getElem?_set_ne hne]
      exact ih (fun a b ha hb => hinj a b (Nat.lt_succ_of_lt ha) (Nat.lt_succ_of_lt hb))
        i hlt hlen

end FoldSet

end Mixxx

namespace Mixxx

namespace CircularBuffer

section WriteContents

variable {α : Type} [Zero α]

theorem getElem?_contents (cb : CircularBuffer α) (i : Nat) :
    cb.contents[i]? = if i < cb.occupied then some (cb.peek i) else none := by
  unfold contents
  rw [List.getElem?_map]
  split_ifs with h
  · rw [List.getElem?_range h]; rfl
  · rw [List.getElem?_eq_none (by simpa using h)]; rfl

theorem write_eq (cb : CircularBuffer α) (samples : List α) (count : Nat)
    (h : cb.WF) (hlen : min count (cb.capacity - cb.occupied) ≤ samples.length) :
    ∃ cb1, cb.write samples count = .ok (min count (cb.capacity - cb.occupied), cb1) ∧
      cb1.WF ∧ cb1.slots = cb.slots ∧ cb1.readCursor = cb.readCursor ∧
      cb1.occupied = cb.occupied + min count (cb.capacity - cb.occupied) ∧
      cb1.contents =
        cb.contents ++ samples.take (min count (cb.capacity - cb.occupied)) := by
  obtain ⟨h0, hr, hw⟩ := h
  have hk : min count (cb.capacity - cb.occupied) ≤ cb.slots - 1 - cb.occupied :=
    Nat.min_le_right _ _
  generalize hkdef : min count (cb.capacity - cb.occupied) = k at hlen hk
  have hocc : cb.occupied < cb.slots := occupied_lt_slots cb ⟨h0, hr, hw⟩
  have hwrite : cb.write samples count =
      .ok (k, { cb with
        storage := (List.range k).foldl
          (fun st i => st.set ((cb.writeCursor + i) % cb.slots) (samples.getD i 0)) cb.storage
        writeCursor := (cb.writeCursor + k) % cb.slots }) := by
    simp only [write, hkdef]
    rw [if_pos hlen]
  have hslots : ({ cb with
        storage := (List.range k).foldl
          (fun st i => st.set ((cb.writeCursor + i) % cb.slots) (samples.getD i 0)) cb.storage
        writeCursor := (cb.writeCursor + k) % cb.slots } : CircularBuffer α).slots =
      cb.slots := by
    simp only [slots, length_foldl_set]
  have hoccupied : ({ cb with
        storage := (List.range k).foldl
          (fun st i => st.set ((cb.writeCursor + i) % cb.slots) (samples.getD i 0)) cb.storage
        writeCursor := (cb.writeCursor + k) % cb.slots } : CircularBuffer α).occupied =
      cb.occupied + k := by
    unfold occupied
    rw [hslots]
    exact occupied_write_advance cb.slots cb.readCursor cb.writeCursor k hr hw hk
  have hslot : ∀ i, i < k →
      (cb.writeCursor + i) % cb.slots = (cb.readCursor + (cb.occupied + i)) % cb.slots := by
    intro i hi
    exact write_slot_eq cb.slots cb.readCursor cb.writeCursor i hr hw
      (by unfold occupied at hk hocc; omega)
  have hinj : ∀ i i2, i < k → i2 < k →
      (cb.writeCursor + i) % cb.slots = (cb.writeCursor + i2) % cb.slots → i = i2 := by
    intro i i2 hi hi2 he
    rw [hslot i hi, hslot i2 hi2] at he
    have := slot_injective cb.slots cb.readCursor _ _ hr (by omega) (by omega) he
    omega
  refine ⟨_, hwrite, ⟨by rw [hslots]; exact h0, by rw [hslots]; exact hr,
    by rw [hslots]; exact Nat.mod_lt _ h0⟩, hslots, rfl, hoccupied, ?_⟩
  apply List.ext_getElem?
  intro i
  rw [getElem?_contents, hoccupied, List.getElem?_append, length_contents, getElem?_contents,
    List.getElem?_take]
  by_cases hi1 : i < cb.occupied
  · have hi2 : i < cb.occupied + k := by omega
    have hother : ((List.range k).foldl
        (fun st i => st.set ((cb.writeCursor + i) % cb.slots) (samples.getD i 0))
        cb.storage)[(cb.readCursor + i) % cb.slots]? =
        cb.storage[(cb.readCursor + i) % cb.slots]? := by
      apply getElem?_foldl_set_other
      intro i2 hi2 he
      rw [hslot i2 hi2] at he
      have := slot_injective cb.slots cb.readCursor _ _ hr (by omega) (by omega) he
      omega
    rw [if_pos hi1, if_pos hi1, if_pos hi2]
    congr 1
    unfold peek
    rw [hslots, List.getD_eq_getElem?_getD, List.getD_eq_getElem?_getD]
    exact congrArg (fun o => Option.getD o 0) hother
  · rw [if_neg hi1]
    by_cases hi2 : i < cb.occupied + k
    · have hi3 : i - cb.occupied < k := by omega
      have hi4 : i - cb.occupied < samples.length := by omega
      have hidx : (cb.readCursor + i) % cb.slots =
          (cb.writeCursor + (i - cb.occupied)) % cb.slots := by
        rw [hslot _ hi3]
        congr 2
        omega
      have hhit : ((List.range k).foldl
          (fun st i => st.set ((cb.writeCursor + i) % cb.slots) (samples.getD i 0))
          cb.storage)[(cb.readCursor + i) % cb.slots]? =
          some (samples.getD (i - cb.occupied) 0) := by
        rw [hidx]
        exact getElem?_foldl_set_hit (fun i => (cb.writeCursor + i) % cb.slots)
          (fun i => samples.getD i 0) cb.storage k hinj _ hi3 (Nat.mod_lt _ h0)
      rw [if_pos hi2, if_pos hi3, List.getElem?_eq_getElem hi4]
      congr 1
      unfold peek
      rw [hslots, List.getD_eq_getElem?_getD]
      have hval : samples.getD (i - cb.occupied) 0 = samples[i - cb.occupied] := by
        simp [List.getElem?_eq_getElem hi4]
      have hget := congrArg (fun o => Option.getD o 0) hhit
      simp only [Option.getD_some] at hget
      exact hget.trans hval
    · have hi3 : ¬ (i - cb.occupied < k) := by omega
      rw [if_neg hi2, if_neg hi3]

end WriteContents

end CircularBuffer

end Mixxx

namespace Mixxx

open EngineDeck

section RingContract

variable {α : Type} [Zero α]

theorem CircularBuffer.contents_of_isEmpty (cb : CircularBuffer α) (h : cb.WF)
    (he : cb.isEmpty = true) : cb.contents = [] := by
  have h0 : cb.occupied = 0 := (CircularBuffer.isEmpty_iff_occupied cb h).1 he
  apply List.eq_nil_of_length_eq_zero
  rw [CircularBuffer.length_contents, h0]

/-- C16: for every well-formed buffer state and every count, `write(samples, count)` returns
`min(count, capacity - occupied)` and the buffered content afterwards is the old content
followed by exactly that prefix of `samples`; so nothing is dropped when
`occupied + count ≤ capacity`, and a full buffer returns 0 and stays as it was. -/
theorem C16_write_contract (cb : CircularBuffer α) (samples : List α) (count : Nat)
    (h : cb.WF)
    (hlen : count ≤ samples.length) :
    ∃ cb1,
      cb.write samples count = .ok (min count (cb.capacity - cb.occupied), cb1) ∧
      cb1.contents = cb.contents ++ samples.take (min count (cb.capacity - cb.occupied)) ∧
      cb1.occupied = cb.occupied + min count (cb.capacity - cb.occupied) ∧
      cb1.readCursor = cb.readCursor ∧
      cb1.WF ∧
      (cb.occupied + count ≤ cb.capacity → min count (cb.capacity - cb.occupied) = count) ∧
      (cb.occupied = cb.capacity →
        min count (cb.capacity - cb.occupied) = 0 ∧ cb1 = cb) := by
  obtain ⟨cb1, hw, hwf, _, hrc, hocc, hcont⟩ :=
    CircularBuffer.write_eq cb samples count h (Nat.le_trans (Nat.min_le_left _ _) hlen)
  refine ⟨cb1, hw, hcont, hocc, hrc, hwf, ?_, ?_⟩
  · intro hfit
    omega
  · intro hfull
    have hz : min count (cb.capacity - cb.occupied) = 0 := by omega
    rw [hz] at hw
    exact ⟨hz, CircularBuffer.write_zero cb cb1 samples count h hw⟩

theorem C16_write_contract_witness :
    ({ storage := [9, 10, 3, 4, 5, 6, 7, 8], readCursor := 3, writeCursor := 5 } :
      CircularBuffer Int).WF ∧
    3 ≤ [11, 12, (13 : Int)].length ∧
    ({ storage := [9, 10, 3, 4, 5, 6, 7, 8], readCursor := 3, writeCursor := 5 } :
      CircularBuffer Int).contents = [4, 5] ∧
    ({ storage := [9, 10, 3, 4, 5, 6, 7, 8], readCursor := 3, writeCursor := 5 } :
      CircularBuffer Int).write [11, 12, 13] 3 =
      .ok (3, { storage := [9, 10, 3, 4, 5, 11, 12, 13], readCursor := 3, writeCursor := 0 }) ∧
    ({ storage := [9, 10, 3, 4, 5, 11, 12, 13], readCursor := 3, writeCursor := 0 } :
      CircularBuffer Int).contents = [4, 5, 11, 12, 13] ∧
    ∃ cb1 : CircularBuffer Int,
      ({ storage := [9, 10, 3, 4, 5, 6, 7, 8], readCursor := 3, writeCursor := 5 } :
        CircularBuffer Int).write [11, 12, 13] 3 = .ok (3, cb1) ∧
      cb1.contents = [4, 5] ++ [11, 12, 13] :=
  ⟨by decide, by decide, by decide, by decide, by decide,
   match C16_write_contract
     ({ storage := [9, 10, 3, 4, 5, 6, 7, 8], readCursor := 3, writeCursor := 5 } :
       CircularBuffer Int) [11, 12, 13] 3 (by decide) (by decide) with
   | ⟨cb1, h1, h2, _⟩ => ⟨cb1, h1, h2⟩⟩

/-- C17: for every `count ≤ capacity` and every sample sequence of that length, writing it to
an empty well-formed ring buffer accepts all `count` samples, and reading `count` samples
afterwards returns `count`, puts the original sequence in the destination and leaves the
buffer empty. -/
theorem C17_round_trip (cb : CircularBuffer α) (samples destination : List α) (count : Nat)
    (h : cb.WF)
    (he : cb.isEmpty = true)
    (hcount : samples.length = count)
    (hcap : count ≤ cb.capacity)
    (hdest : count ≤ destination.length) :
    ∃ cb1 cb2,
      cb.write samples count = .ok (count, cb1) ∧
      cb1.read destination count = .ok (count, samples ++ destination.drop count, cb2) ∧
      cb2.isEmpty = true ∧
      cb2.contents = [] := by
  have h0 : cb.occupied = 0 := (CircularBuffer.isEmpty_iff_occupied cb h).1 he
  have hk : min count (cb.capacity - cb.occupied) = count := by omega
  obtain ⟨cb1, hw, hwf, _, _, hocc, hcont⟩ :=
    CircularBuffer.write_eq cb samples count h (by omega)
  rw [hk] at hw hocc hcont
  rw [CircularBuffer.contents_of_isEmpty cb h he, h0, Nat.zero_add] at *
  have hmin : min count cb1.occupied = count := by omega
  have hread := CircularBuffer.read_eq cb1 destination count (by omega)
  rw [hmin, hcont] at hread
  have htake : ([] ++ samples.take count).take count = samples := by
    rw [List.nil_append, List.take_take, Nat.min_self, ← hcount, List.take_length]
  rw [htake] at hread
  have hocc2 := CircularBuffer.occupied_skip cb1 count hwf
  rw [hmin, hocc, Nat.sub_self] at hocc2
  have hwf2 := CircularBuffer.skip_WF cb1 count hwf
  have hempty2 := (CircularBuffer.isEmpty_iff_occupied _ hwf2).2 hocc2
  exact ⟨cb1, cb1.skip count, hw, hread, hempty2,
    CircularBuffer.contents_of_isEmpty _ hwf2 hempty2⟩

theorem C17_round_trip_witness :
    (CircularBuffer.new 8 : CircularBuffer Int).WF ∧
    (CircularBuffer.new 8 : CircularBuffer Int).isEmpty = true ∧
    [1, 2, (3 : Int)].length = 3 ∧
    3 ≤ (CircularBuffer.new 8 : CircularBuffer Int).capacity ∧
    3 ≤ [0, 0, 0, (0 : Int)].length ∧
    ∃ cb1 cb2 : CircularBuffer Int,
      (CircularBuffer.new 8 : CircularBuffer Int).write [1, 2, 3] 3 = .ok (3, cb1) ∧
      cb1.read [0, 0, 0, 0] 3 = .ok (3, [1, 2, 3] ++ [0, 0, 0, (0 : Int)].drop 3, cb2) ∧
      cb2.isEmpty = true ∧
      cb2.contents = [] :=
  ⟨by decide, by decide, by decide, by decide, by decide,
   C17_round_trip (CircularBuffer.new 8 : CircularBuffer Int) [1, 2, 3] [0, 0, 0, 0] 3
     (by decide) (by decide) (by decide) (by decide) (by decide)⟩

/-- C18: with a ring buffer of 8 slots (usable capacity 7), writing `[1..5]` returns 5;
reading 3 returns `[1,2,3]` and leaves 2 samples, `[4,5]`; writing `[6..11]` accepts 5
samples, `[6..10]`, and drops `11`; reading 7 then returns `[4,5,6,7,8,9,10]`. -/
theorem C18_end_to_end_scenario :
    (CircularBuffer.new 8 : CircularBuffer Int).capacity = 7 ∧
    (CircularBuffer.new 8 : CircularBuffer Int).write [1, 2, 3, 4, 5] 5 =
      .ok (5, { storage := [1, 2, 3, 4, 5, 0, 0, 0], readCursor := 0, writeCursor := 5 }) ∧
    ({ storage := [1, 2, 3, 4, 5, 0, 0, 0], readCursor := 0, writeCursor := 5 } :
      CircularBuffer Int).read [0, 0, 0] 3 =
      .ok (3, [1, 2, 3],
           { storage := [1, 2, 3, 4, 5, 0, 0, 0], readCursor := 3, writeCursor := 5 }) ∧
    ({ storage := [1, 2, 3, 4, 5, 0, 0, 0], readCursor := 3, writeCursor := 5 } :
      CircularBuffer Int).occupied = 2 ∧
    ({ storage := [1, 2, 3, 4, 5, 0, 0, 0], readCursor := 3, writeCursor := 5 } :
      CircularBuffer Int).contents = [4, 5] ∧
    ({ storage := [1, 2, 3, 4, 5, 0, 0, 0], readCursor := 3, writeCursor := 5 } :
      CircularBuffer Int).write [6, 7, 8, 9, 10, 11] 6 =
      .ok (5, { storage := [9, 10, 3, 4, 5, 6, 7, 8], readCursor := 3, writeCursor := 2 }) ∧
    ({ storage := [9, 10, 3, 4, 5, 6, 7, 8], readCursor := 3, writeCursor := 2 } :
      CircularBuffer Int).contents = [4, 5, 6, 7, 8, 9, 10] ∧
    ({ storage := [9, 10, 3, 4, 5, 6, 7, 8], readCursor := 3, writeCursor := 2 } :
      CircularBuffer Int).read [0, 0, 0, 0, 0, 0, 0] 7 =
      .ok (7, [4, 5, 6, 7, 8, 9, 10],
           { storage := [9, 10, 3, 4, 5, 6, 7, 8], readCursor := 2, writeCursor := 2 }) := by
  decide

end RingContract

end Mixxx

namespace Mixxx

open EngineDeck

section Stereo

variable {α : Type} [Zero α]

theorem writeOffered_eq (d : EngineDeck α) (pWriteBuffer : List α) (samplesToWrite : Nat)
    (h : d.m_sampleBuffer.WF) (hlen : samplesToWrite ≤ pWriteBuffer.length) :
    ∃ rb,
      writeOffered d pWriteBuffer samplesToWrite =
        .ok { deck := { d with m_sampleBuffer := rb }
              offered := some (pWriteBuffer, samplesToWrite)
              samplesWritten :=
                min samplesToWrite (d.m_sampleBuffer.capacity - d.m_sampleBuffer.occupied) } ∧
      rb.WF ∧
      rb.contents = d.m_sampleBuffer.contents ++ pWriteBuffer.take
        (min samplesToWrite (d.m_sampleBuffer.capacity - d.m_sampleBuffer.occupied)) := by
  obtain ⟨rb, hw, hwf, _, _, _, hcont⟩ :=
    CircularBuffer.write_eq d.m_sampleBuffer pWriteBuffer samplesToWrite h
      (Nat.le_trans (Nat.min_le_left _ _) hlen)
  refine ⟨rb, ?_, hwf, hcont⟩
  unfold writeOffered
  rw [hw]

/-- C12: with two input channels, passthrough on and a vinyl-control input, `receiveBuffer`
returns and hands the ring buffer's `write` the raw input buffer itself with
`samplesToWrite = 2 * min(nFrames, MAX_BUFFER_LEN / 2)`: the first that many samples of the
raw input, unmodified and in order; the conversion buffer is not touched, and what the ring
buffer takes in is a prefix of that block. -/
theorem C12_stereo_offered (MAX_BUFFER_LEN : Nat)
    (channelsNeededForType : AudioPathType → Nat)
    (d : EngineDeck α) (input : AudioInput) (pBuffer : List α) (nFrames : Nat)
    (hwf : d.m_sampleBuffer.WF)
    (hon : d.m_bPassthroughIsActive = true)
    (hty : input.getType = AudioPathType.VINYLCONTROL)
    (hch : channelsNeededForType AudioPathType.VINYLCONTROL = 2)
    (hin : 2 * min nFrames (MAX_BUFFER_LEN / 2) ≤ pBuffer.length) :
    ∃ r,
      d.receiveBuffer MAX_BUFFER_LEN channelsNeededForType input pBuffer nFrames = .ok r ∧
      r.offered = some (pBuffer, 2 * min nFrames (MAX_BUFFER_LEN / 2)) ∧
      r.deck.m_pConversionBuffer = d.m_pConversionBuffer ∧
      r.samplesWritten ≤ 2 * min nFrames (MAX_BUFFER_LEN / 2) ∧
      r.deck.m_sampleBuffer.contents =
        d.m_sampleBuffer.contents ++ pBuffer.take r.samplesWritten := by
  have hcomm : min nFrames (MAX_BUFFER_LEN / 2) * 2 = 2 * min nFrames (MAX_BUFFER_LEN / 2) :=
    Nat.mul_comm _ _
  obtain ⟨rb, hw, _, hcont⟩ :=
    writeOffered_eq d pBuffer (2 * min nFrames (MAX_BUFFER_LEN / 2)) hwf hin
  refine ⟨{ deck := { d with m_sampleBuffer := rb }
            offered := some (pBuffer, 2 * min nFrames (MAX_BUFFER_LEN / 2))
            samplesWritten := min (2 * min nFrames (MAX_BUFFER_LEN / 2))
              (d.m_sampleBuffer.capacity - d.m_sampleBuffer.occupied) },
    ?_, rfl, rfl, Nat.min_le_left _ _, hcont⟩
  rw [receiveBuffer_stereo _ _ _ _ _ _ hon hty hch, hcomm]
  exact hw

theorem C12_stereo_offered_witness :
    (Example.fresh.slotPassingToggle (.finite 1)).m_sampleBuffer.WF ∧
    (Example.fresh.slotPassingToggle (.finite 1)).m_bPassthroughIsActive = true ∧
    Example.vinyl.getType = AudioPathType.VINYLCONTROL ∧
    Example.stereo AudioPathType.VINYLCONTROL = 2 ∧
    2 * min 5 (8 / 2) ≤ [1, 2, 3, 4, 5, 6, 7, 8, 9, (10 : Int)].length ∧
    ((Example.fresh.slotPassingToggle (.finite 1)).receiveBuffer 8 Example.stereo
        Example.vinyl [1, 2, 3, 4, 5, 6, 7, 8, 9, 10] 5).map (fun r => r.offered) =
      .ok (some ([1, 2, 3, 4, 5, 6, 7, 8, 9, 10], 8)) ∧
    ∃ r,
      (Example.fresh.slotPassingToggle (.finite 1)).receiveBuffer 8 Example.stereo
        Example.vinyl [1, 2, 3, 4, 5, 6, 7, 8, 9, 10] 5 = .ok r ∧
      r.offered = some ([1, 2, 3, 4, 5, 6, 7, 8, 9, 10], 2 * min 5 (8 / 2)) ∧
      r.deck.m_pConversionBuffer =
        (Example.fresh.slotPassingToggle (.finite 1)).m_pConversionBuffer ∧
      r.samplesWritten ≤ 2 * min 5 (8 / 2) ∧
      r.deck.m_sampleBuffer.contents =
        (Example.fresh.slotPassingToggle (.finite 1)).m_sampleBuffer.contents ++
          [1, 2, 3, 4, 5, 6, 7, 8, 9, (10 : Int)].take r.samplesWritten :=
  ⟨by decide, by decide, by decide, by decide, by decide, by decide,
   C12_stereo_offered 8 Example.stereo (Example.fresh.slotPassingToggle (.finite 1))
     Example.vinyl [1, 2, 3, 4, 5, 6, 7, 8, 9, 10] 5
     (by decide) (by decide) (by decide) (by decide) (by decide)⟩

/-- C20: the `2 * min(nFrames, MAX_BUFFER_LEN / 2)` samples a stereo `receiveBuffer` call
offers never exceed `MAX_BUFFER_LEN`, which is the usable capacity of the ring buffer the
constructor makes with `MAX_BUFFER_LEN + 1` slots; so a stereo call into an empty ring buffer
of that size (passthrough on, vinyl-control input) writes every offered sample, and the ring
buffer then holds exactly the offered block. -/
theorem C20_stereo_fits_empty_buffer (MAX_BUFFER_LEN : Nat)
    (channelsNeededForType : AudioPathType → Nat)
    (d : EngineDeck α) (input : AudioInput) (pBuffer : List α) (nFrames : Nat)
    (hwf : d.m_sampleBuffer.WF)
    (hslots : d.m_sampleBuffer.slots = MAX_BUFFER_LEN + 1)
    (hempty : d.m_sampleBuffer.isEmpty = true)
    (hon : d.m_bPassthroughIsActive = true)
    (hty : input.getType = AudioPathType.VINYLCONTROL)
    (hch : channelsNeededForType AudioPathType.VINYLCONTROL = 2)
    (hin : 2 * min nFrames (MAX_BUFFER_LEN / 2) ≤ pBuffer.length) :
    2 * min nFrames (MAX_BUFFER_LEN / 2) ≤ MAX_BUFFER_LEN ∧
    (EngineDeck.new MAX_BUFFER_LEN : EngineDeck α).m_sampleBuffer.capacity = MAX_BUFFER_LEN ∧
    d.m_sampleBuffer.capacity = MAX_BUFFER_LEN ∧
    ∃ r,
      d.receiveBuffer MAX_BUFFER_LEN channelsNeededForType input pBuffer nFrames = .ok r ∧
      r.offered = some (pBuffer, 2 * min nFrames (MAX_BUFFER_LEN / 2)) ∧
      r.samplesWritten = 2 * min nFrames (MAX_BUFFER_LEN / 2) ∧
      r.deck.m_sampleBuffer.contents =
        pBuffer.take (2 * min nFrames (MAX_BUFFER_LEN / 2)) := by
  have hbound : 2 * min nFrames (MAX_BUFFER_LEN / 2) ≤ MAX_BUFFER_LEN := by omega
  have hcap : d.m_sampleBuffer.capacity = MAX_BUFFER_LEN := by
    unfold CircularBuffer.capacity
    omega
  have h0 : d.m_sampleBuffer.occupied = 0 :=
    (CircularBuffer.isEmpty_iff_occupied _ hwf).1 hempty
  have hcomm : min nFrames (MAX_BUFFER_LEN / 2) * 2 = 2 * min nFrames (MAX_BUFFER_LEN / 2) :=
    Nat.mul_comm _ _
  have hk : min (2 * min nFrames (MAX_BUFFER_LEN / 2))
      (d.m_sampleBuffer.capacity - d.m_sampleBuffer.occupied) =
      2 * min nFrames (MAX_BUFFER_LEN / 2) := by
    rw [hcap, h0]
    omega
  obtain ⟨rb, hw, _, hcont⟩ :=
    writeOffered_eq d pBuffer (2 * min nFrames (MAX_BUFFER_LEN / 2)) hwf hin
  rw [hk] at hw hcont
  rw [CircularBuffer.contents_of_isEmpty _ hwf hempty, List.nil_append] at hcont
  refine ⟨hbound, ?_, hcap,
    { deck := { d with m_sampleBuffer := rb }
      offered := some (pBuffer, 2 * min nFrames (MAX_BUFFER_LEN / 2))
      samplesWritten := 2 * min nFrames (MAX_BUFFER_LEN / 2) },
    ?_, rfl, rfl, hcont⟩
  · simp [EngineDeck.new, CircularBuffer.new, CircularBuffer.capacity, CircularBuffer.slots]
  · rw [receiveBuffer_stereo _ _ _ _ _ _ hon hty hch, hcomm]
    exact hw

theorem C20_stereo_fits_empty_buffer_witness :
    (Example.fresh.slotPassingToggle (.finite 1)).m_sampleBuffer.WF ∧
    (Example.fresh.slotPassingToggle (.finite 1)).m_sampleBuffer.slots = 8 + 1 ∧
    (Example.fresh.slotPassingToggle (.finite 1)).m_sampleBuffer.isEmpty = true ∧
    (Example.fresh.slotPassingToggle (.finite 1)).m_bPassthroughIsActive = true ∧
    Example.vinyl.getType = AudioPathType.VINYLCONTROL ∧
    Example.stereo AudioPathType.VINYLCONTROL = 2 ∧
    2 * min 5 (8 / 2) ≤ [1, 2, 3, 4, 5, 6, 7, 8, 9, (10 : Int)].length ∧
    ((Example.fresh.slotPassingToggle (.finite 1)).receiveBuffer 8 Example.stereo
        Example.vinyl [1, 2, 3, 4, 5, 6, 7, 8, 9, 10] 5).map
        (fun r => (r.samplesWritten, r.deck.m_sampleBuffer.contents)) =
      .ok (8, [1, 2, 3, 4, 5, 6, 7, 8]) ∧
    ∃ r,
      (Example.fresh.slotPassingToggle (.finite 1)).receiveBuffer 8 Example.stereo
        Example.vinyl [1, 2, 3, 4, 5, 6, 7, 8, 9, 10] 5 = .ok r ∧
      r.offered = some ([1, 2, 3, 4, 5, 6, 7, 8, 9, 10], 2 * min 5 (8 / 2)) ∧
      r.samplesWritten = 2 * min 5 (8 / 2) ∧
      r.deck.m_sampleBuffer.contents =
        [1, 2, 3, 4, 5, 6, 7, 8, 9, (10 : Int)].take (2 * min 5 (8 / 2)) :=
  ⟨by decide, by decide, by decide, by decide, by decide, by decide, by decide, by decide,
   (C20_stereo_fits_empty_buffer 8 Example.stereo
     (Example.fresh.slotPassingToggle (.finite 1))
     Example.vinyl [1, 2, 3, 4, 5, 6, 7, 8, 9, 10] 5
     (by decide) (by decide) (by decide) (by decide) (by decide) (by decide)
     (by decide)).2.2.2⟩

end Stereo

end Mixxx
